import Mathlib

/-!
# URDF parser: entity builders of `src/link.cpp`

A shallow embedding of the document-driven builders of the URDF parser
(`Material::fromXml`, `getParentLinkName`, `Inertial::fromXml`, `Visual::fromXml`,
`Collision::fromXml`, `Link::fromXml`) together with the value types of
`urdf/common.h` and `urdf/geometry.h`, the `nonboost` string utilities (`split`,
`trim`) and the fallback `M_PI` of `urdf/common.h`, and theorems about them.

Conventions of the embedding.

* `double` and `float` are an abstract type `F`: none of the builder properties
  below depends on floating-point arithmetic.
* A C++ call either returns a value, throws, or has undefined behaviour; the
  three are the constructors of `Outcome`.
* A `TiXmlElement*` is an element together with its chain of parents, so that
  `Parent()` can be followed upward as `getParentLinkName` does.
* Functions that `link.cpp` calls but that are defined elsewhere
  (`Color::fromColorStr`, `Transform::fromXml`, `Geometry::fromXml`, `std::stod`)
  are fields of `Externals`; the general theorems hold for all of them, and the
  concrete runs use the instance `Sample.ext`.
-/

namespace urdf

/-! ## Outcomes of a C++ call -/

/-- The ways in which the embedded code leaves defined behaviour. -/
inductive Undefined where
  /-- A member is read through a null pointer. -/
  | nullDereference
  /-- A null `const char*` is streamed into an error message. -/
  | nullCString
  /-- Control flows off the end of a value-returning function. -/
  | missingReturn
  deriving DecidableEq, Repr

/-- The exception types thrown in the embedded code, with their `what()`. -/
inductive Exception where
  | URDFParseError (what : String)
  | bad_lexical_cast (what : String)
  deriving DecidableEq, Repr

/-- Result of running a C++ function: a returned value, a thrown exception, or
undefined behaviour. -/
inductive Outcome (α : Type) where
  | ok (value : α)
  | throws (e : Exception)
  | undefined (u : Undefined)
  deriving DecidableEq, Repr

namespace Outcome

/-- Sequencing: the continuation runs only after a normal return. -/
def bind {α β : Type} (x : Outcome α) (f : α → Outcome β) : Outcome β :=
  match x with
  | ok a => f a
  | throws e => throws e
  | undefined u => undefined u

instance : Monad Outcome where
  pure := Outcome.ok
  bind := Outcome.bind

/-- The block `try { x } catch (URDFParseError &e) { handler e.what() }`. -/
def catchURDFParseError {α : Type} (x : Outcome α) (handler : String → Outcome α) :
    Outcome α :=
  match x with
  | throws (.URDFParseError w) => handler w
  | other => other

/-- The block `try { x } catch (bad_lexical_cast &e) { handler e.what() }`. -/
def catchBadLexicalCast {α : Type} (x : Outcome α) (handler : String → Outcome α) :
    Outcome α :=
  match x with
  | throws (.bad_lexical_cast w) => handler w
  | other => other

/-- The statement `throw URDFParseError(msg)`. -/
def parseError {α : Type} (msg : String) : Outcome α :=
  throws (.URDFParseError msg)

end Outcome

/-! ## The document tree -/

/-- Modelled from the spec: the document tree (the tinyxml classes) lies outside
`link.cpp` and the two headers; a document node is a tag (`Value()`), string-valued
attributes in document order and child elements in document order, and the
accessors `Attribute(name)` and `FirstChildElement(tag)` look names up by content. -/
inductive XmlNode where
  | mk (value : String) (attributes : List (String × String)) (children : List XmlNode)

namespace XmlNode

/-- Tag of the element. -/
def value : XmlNode → String
  | mk v _ _ => v

/-- Attributes of the element, in document order. -/
def attributes : XmlNode → List (String × String)
  | mk _ a _ => a

/-- Child elements, in document order. -/
def children : XmlNode → List XmlNode
  | mk _ _ c => c

/-- The `Attribute(name)` accessor: value of the first attribute called `name`,
or null (`none`) when there is none. -/
def Attribute (n : XmlNode) (name : String) : Option String :=
  (n.attributes.find? (fun kv => kv.1 == name)).map Prod.snd

end XmlNode

/-- What `Parent()` can return: null, the document, or an enclosing element
(which has a parent of its own). -/
inductive Parent where
  | null
  | document
  | element (node : XmlNode) (parent : Parent)

namespace Parent

/-- The test `p != NULL`. -/
def isNull : Parent → Bool
  | null => true
  | _ => false

/-- The enclosing elements, nearest first. -/
def elements : Parent → List XmlNode
  | element n p => n :: p.elements
  | _ => []

/-- The chain of parents ends in a document (and not in a null `Parent()`). -/
def inDocument : Parent → Bool
  | null => false
  | document => true
  | element _ p => p.inDocument

end Parent

/-- A `TiXmlElement*` that is not null: the element and its parent chain. -/
structure TiXmlElement where
  node : XmlNode
  parent : Parent

namespace TiXmlElement

/-- The tag, `Value()`. -/
def Value (e : TiXmlElement) : String := e.node.value

/-- The `Attribute(name)` accessor of the element. -/
def Attribute (e : TiXmlElement) (name : String) : Option String :=
  e.node.Attribute name

/-- The `Parent()` accessor. -/
def Parent (e : TiXmlElement) : urdf.Parent := e.parent

/-- The `FirstChildElement(tag)` accessor: first child with that tag, or null. -/
def FirstChildElement (e : TiXmlElement) (tag : String) : Option TiXmlElement :=
  (e.node.children.find? (fun c => c.value == tag)).map
    (fun c => ⟨c, .element e.node e.parent⟩)

end TiXmlElement

/-- `ToElement()` on a non-null parent: the element, or null for the document. -/
def Parent.ToElement : Parent → Option TiXmlElement
  | .element n p => some ⟨n, p⟩
  | _ => none

/-! ## Value types (`urdf/common.h`, `urdf/geometry.h`) -/

structure Vector3 (F : Type) where
  x : F
  y : F
  z : F
  deriving DecidableEq, Repr

structure Rotation (F : Type) where
  x : F
  y : F
  z : F
  w : F
  deriving DecidableEq, Repr

structure Color (F : Type) where
  r : F
  g : F
  b : F
  a : F
  deriving DecidableEq, Repr

structure Transform (F : Type) where
  position : Vector3 F
  rotation : Rotation F
  deriving DecidableEq, Repr

/-- Default constructor `Vector3()`. -/
def Vector3.default (F : Type) [Zero F] : Vector3 F := ⟨0, 0, 0⟩

/-- Default constructor `Rotation()`. -/
def Rotation.default (F : Type) [Zero F] [One F] : Rotation F := ⟨0, 0, 0, 1⟩

/-- Default constructor `Color()`. -/
def Color.default (F : Type) [Zero F] [One F] : Color F := ⟨0, 0, 0, 1⟩

/-- Default constructor `Transform()`. -/
def Transform.default (F : Type) [Zero F] [One F] : Transform F :=
  ⟨Vector3.default F, Rotation.default F⟩

/-- The closed family of shapes of `urdf/geometry.h`. -/
inductive Geometry (F : Type) where
  | Sphere (radius : F)
  | Box (dim : Vector3 F)
  | Cylinder (length : F) (radius : F)
  | Mesh (filename : String) (scale : Vector3 F)
  deriving DecidableEq, Repr

/-! ## Entities built by `link.cpp` -/

/-- Modelled from the spec: `urdf/link.h` is not among the files embedded here; the
fields follow the data model (name required, texture file name and colour
optional). -/
structure Material (F : Type) where
  name : String
  texture_filename : Option String
  color : Option (Color F)
  deriving DecidableEq, Repr

/-- The default-constructed `Material m;` with which `Material::fromXml` starts. -/
def Material.default (F : Type) : Material F := ⟨"", none, none⟩

/-- Functions called by `link.cpp` whose bodies lie outside `link.cpp` and the two headers. -/
structure Externals (F : Type) where
  /-- `std::stod`: the parsed number, or the `what()` of the exception it throws. -/
  stod : String → Except String F
  /-- `Color::fromColorStr`. -/
  Color_fromColorStr : String → Outcome (Color F)
  /-- `Transform::fromXml`. -/
  Transform_fromXml : TiXmlElement → Outcome (Transform F)
  /-- `Geometry::fromXml`. -/
  Geometry_fromXml : TiXmlElement → Outcome (Geometry F)

/-- `Material::fromXml(xml, only_name_is_ok)` of `link.cpp`. -/
def Material.fromXml {F : Type} (ext : Externals F) (xml : TiXmlElement)
    (only_name_is_ok : Bool) : Outcome (Material F) :=
  match xml.Attribute "name" with
  | none => Outcome.parseError "Error! Material without a name attribute detected!"
  | some name_str =>
    let m : Material F := { Material.default F with name := name_str }
    -- texture
    let (m, has_filename) :=
      match xml.FirstChildElement "texture" with
      | some t =>
        match t.Attribute "filename" with
        | some f => ({ m with texture_filename := some f }, true)
        | none => (m, false)
      | none => (m, false)
    -- color
    let colorStep : Outcome (Material F × Bool) :=
      match xml.FirstChildElement "color" with
      | some c =>
        match c.Attribute "rgba" with
        | some rgba =>
          Outcome.catchURDFParseError
            ((ext.Color_fromColorStr rgba).bind
              (fun col => Outcome.ok ({ m with color := some col }, true)))
            (fun what => Outcome.parseError
              ("Material [" ++ m.name ++ "] has malformed color rgba values: " ++ what ++ "!"))
        | none => Outcome.ok (m, false)
      | none => Outcome.ok (m, false)
    colorStep.bind (fun (m, has_rgb) =>
      if !has_rgb && !has_filename then
        if !only_name_is_ok then
          Outcome.parseError
            ("Material [" ++ m.name ++ "] has neither a texture nor a color defined!")
        else Outcome.ok m
      else Outcome.ok m)

/-! ## Context resolution -/

/-- The test `e->Value() != "link"` of `getParentLinkName`. `Value()` returns a
`const char*`, as every accessor that `link.cpp` reads does, and `!=` between a
`const char*` and a string literal compares the two addresses; the address of
the tag of an element is never the address of the literal, so the test holds
whatever the tag is. -/
def valueIsNotLiteral (_value _literal : String) : Bool := true

/-- The loop of `getParentLinkName` together with the `ToElement()` that feeds it.
The argument is the node on which `ToElement()` is called; `e` is the result. -/
def getParentLinkName.walk : Parent → Outcome (Option String)
  -- `->ToElement()` is called on a null `Parent()`
  | .null => .undefined .nullDereference
  -- `ToElement()` of the document is null, and the loop test reads `e->Value()`
  | .document => .undefined .nullDereference
  | .element n p =>
    if valueIsNotLiteral n.value "link" && !p.isNull then
      getParentLinkName.walk p
    else
      .ok (n.Attribute "name")

/-- `getParentLinkName(c)` of `link.cpp`; the result is the returned `const char*`,
`none` being the null pointer. -/
def getParentLinkName (c : TiXmlElement) : Outcome (Option String) :=
  getParentLinkName.walk c.Parent

/-- The insertion `error_msg << getParentLinkName(xml)`: a null `const char*` must
not be streamed. -/
def streamParentLinkName (xml : TiXmlElement) : Outcome String :=
  (getParentLinkName xml).bind (fun r =>
    match r with
    | some name => .ok name
    | none => .undefined .nullCString)

/-- Throw a `URDFParseError` whose message is `mk` applied to the name that
`getParentLinkName(xml)` returns. -/
def throwInLink {α : Type} (xml : TiXmlElement) (mk : String → String) : Outcome α :=
  (streamParentLinkName xml).bind (fun link => Outcome.parseError (mk link))

/-! ## Inertial -/

/-- `lexical_cast<double>` of `urdf/common.h`: `std::stod`, with any exception
turned into `bad_lexical_cast` carrying the same `what()`. -/
def lexical_cast {F : Type} (ext : Externals F) (str : String) : Outcome F :=
  match ext.stod str with
  | .ok ret => .ok ret
  | .error what => .throws (.bad_lexical_cast what)

/-- Modelled from the spec: `urdf/link.h` is not among the files embedded here; the
fields follow the data model and the assignments made by `Inertial::fromXml`. -/
structure Inertial (F : Type) where
  origin : Transform F
  mass : F
  ixx : F
  ixy : F
  ixz : F
  iyy : F
  iyz : F
  izz : F
  deriving DecidableEq, Repr

/-- The inertia part of `Inertial::fromXml`: the `inertia` child and its six
attributes. -/
def Inertial.inertiaStep {F : Type} (ext : Externals F) (xml : TiXmlElement)
    (origin : Transform F) (mass : F) : Outcome (Inertial F) :=
  match xml.FirstChildElement "inertia" with
  | some inertia_xml =>
    match inertia_xml.Attribute "ixx", inertia_xml.Attribute "ixy",
          inertia_xml.Attribute "ixz", inertia_xml.Attribute "iyy",
          inertia_xml.Attribute "iyz", inertia_xml.Attribute "izz" with
    | some sxx, some sxy, some sxz, some syy, some syz, some szz =>
      Outcome.catchBadLexicalCast
        ((lexical_cast ext sxx).bind fun ixx =>
         (lexical_cast ext sxy).bind fun ixy =>
         (lexical_cast ext sxz).bind fun ixz =>
         (lexical_cast ext syy).bind fun iyy =>
         (lexical_cast ext syz).bind fun iyz =>
         (lexical_cast ext szz).bind fun izz =>
         Outcome.ok ⟨origin, mass, ixx, ixy, ixz, iyy, iyz, izz⟩)
        (fun what => throwInLink xml (fun link =>
          "Error while parsing link '" ++ link
            ++ "Inertial: one of the inertia elements is not a valid double:"
            ++ " ixx [" ++ sxx ++ "]" ++ " ixy [" ++ sxy ++ "]" ++ " ixz [" ++ sxz ++ "]"
            ++ " iyy [" ++ syy ++ "]" ++ " iyz [" ++ syz ++ "]" ++ " izz [" ++ szz ++ "]\n\n"
            ++ what))
    | _, _, _, _, _, _ =>
      throwInLink xml (fun link =>
        "Error while parsing link '" ++ link
          ++ "' <inertia> element must have ixx,ixy,ixz,iyy,iyz,izz attributes!")
  | none =>
    throwInLink xml (fun link =>
      "Error while parsing link '" ++ link
        ++ "' inertial element must have a <inertia> element!")

/-- The mass part of `Inertial::fromXml`: the `mass` child and its `value`. -/
def Inertial.massStep {F : Type} (ext : Externals F) (xml : TiXmlElement) : Outcome F :=
  match xml.FirstChildElement "mass" with
  | some mass_xml =>
    match mass_xml.Attribute "value" with
    | some v =>
      Outcome.catchBadLexicalCast (lexical_cast ext v)
        (fun what => throwInLink xml (fun link =>
          "Error while parsing link '" ++ link ++ "': inertial mass [" ++ v
            ++ "] is not a valid double: " ++ what ++ "!"))
    | none =>
      throwInLink xml (fun link =>
        "Error while parsing link '" ++ link
          ++ "' <mass> element must have a value attribute!")
  | none =>
    throwInLink xml (fun link =>
      "Error while parsing link '" ++ link
        ++ "' inertial element must have a <mass> element!")

/-- The origin part shared by the builders: `Transform()` unless there is an
`origin` child, which is then handed to `build`. -/
def originStep {F : Type} [Zero F] [One F] (xml : TiXmlElement)
    (build : TiXmlElement → Outcome (Transform F)) : Outcome (Transform F) :=
  match xml.FirstChildElement "origin" with
  | some o => build o
  | none => .ok (Transform.default F)

/-- `Inertial::fromXml(xml)` of `link.cpp`. -/
def Inertial.fromXml {F : Type} [Zero F] [One F] (ext : Externals F)
    (xml : TiXmlElement) : Outcome (Inertial F) :=
  (originStep xml ext.Transform_fromXml).bind fun origin =>
  (Inertial.massStep ext xml).bind fun mass =>
  Inertial.inertiaStep ext xml origin mass

/-! ## Visual, Collision, Link -/

/-- Modelled from the spec: `urdf/link.h` is not among the files embedded here; the
fields follow the data model (optional name, origin, optional owned geometry,
optional material name and inline material). -/
structure Visual (F : Type) where
  name : Option String
  origin : Transform F
  geometry : Option (Geometry F)
  material_name : Option String
  material : Option (Material F)
  deriving DecidableEq, Repr

/-- Modelled from the spec: `urdf/link.h` is not among the files embedded here; the
fields follow the data model (optional name, origin, optional owned geometry). -/
structure Collision (F : Type) where
  name : Option String
  origin : Transform F
  geometry : Option (Geometry F)
  deriving DecidableEq, Repr

/-- Modelled from the spec: `urdf/link.h` is not among the files embedded here; the
fields follow the data model (name, optional inertial, visuals and collisions in
document order). -/
structure Link (F : Type) where
  name : String
  inertial : Option (Inertial F)
  visuals : List (Visual F)
  collisions : List (Collision F)
  deriving DecidableEq, Repr

/-- The geometry part shared by `Visual::fromXml` and `Collision::fromXml`: the
`geometry` child, when there is one, goes to `Geometry::fromXml` with no handler
around the call. -/
def geometryStep {F : Type} (ext : Externals F) (xml : TiXmlElement) :
    Outcome (Option (Geometry F)) :=
  match xml.FirstChildElement "geometry" with
  | some geom => (ext.Geometry_fromXml geom).bind (fun g => .ok (some g))
  | none => .ok none

/-- The material part of `Visual::fromXml`: the material name and the inline
material, read in name-only-allowed mode. -/
def Visual.materialStep {F : Type} (ext : Externals F) (xml : TiXmlElement) :
    Outcome (Option String × Option (Material F)) :=
  match xml.FirstChildElement "material" with
  | some mat =>
    match mat.Attribute "name" with
    | some n =>
      (Material.fromXml ext mat true).bind (fun m => .ok (some n, some m))
    | none =>
      throwInLink xml (fun link =>
        "Error while parsing link '" ++ link
          ++ "': visual material must contain a name attribute!")
  | none => .ok (none, none)

/-- `Visual::fromXml(xml)` of `link.cpp`. -/
def Visual.fromXml {F : Type} [Zero F] [One F] (ext : Externals F)
    (xml : TiXmlElement) : Outcome (Visual F) :=
  (originStep xml (fun o =>
    Outcome.catchURDFParseError (ext.Transform_fromXml o)
      (fun what => throwInLink xml (fun link =>
        "Error while parsing link '" ++ link
          ++ "': visual origin is not valid: " ++ what ++ "!")))).bind fun origin =>
  (geometryStep ext xml).bind fun geometry =>
  let name := xml.Attribute "name"
  (Visual.materialStep ext xml).bind fun (material_name, material) =>
  .ok ⟨name, origin, geometry, material_name, material⟩

/-- The body of `Collision::fromXml(xml)` up to its closing brace: the value `col`
that the function has populated when it reaches the end. -/
def Collision.populate {F : Type} [Zero F] [One F] (ext : Externals F)
    (xml : TiXmlElement) : Outcome (Collision F) :=
  (originStep xml (fun o =>
    Outcome.catchURDFParseError (ext.Transform_fromXml o)
      (fun what => throwInLink xml (fun link =>
        "Error while parsing link '" ++ link
          ++ "': collision origin is not a valid: " ++ what ++ "!")))).bind fun origin =>
  (geometryStep ext xml).bind fun geometry =>
  let name := xml.Attribute "name"
  .ok ⟨name, origin, geometry⟩

/-- `Collision::fromXml(xml)` of `link.cpp`: after `col` is populated the body
ends with no `return` statement. -/
def Collision.fromXml {F : Type} [Zero F] [One F] (ext : Externals F)
    (xml : TiXmlElement) : Outcome (Collision F) :=
  (Collision.populate ext xml).bind fun _col =>
  .undefined .missingReturn

/-- The loop `for (e = FirstChildElement(tag); e != nullptr; e = e->NextSiblingElement(tag))`
with body `out.push_back(build(e))`, run over the children `siblings` of `parent`
that are still ahead. -/
def forEachChildElement {α : Type} (tag : String) (parent : TiXmlElement)
    (build : TiXmlElement → Outcome α) : List XmlNode → List α → Outcome (List α)
  | [], out => .ok out
  | c :: rest, out =>
    if c.value == tag then
      (build ⟨c, .element parent.node parent.parent⟩).bind fun v =>
      forEachChildElement tag parent build rest (out ++ [v])
    else
      forEachChildElement tag parent build rest out

/-- The body of `Link::fromXml(xml)` up to its closing brace: the value `link`
that the function has populated when it reaches the end. -/
def Link.populate {F : Type} [Zero F] [One F] (ext : Externals F)
    (xml : TiXmlElement) : Outcome (Link F) :=
  match xml.Attribute "name" with
  | none => Outcome.parseError "Error! Link without a name attribute detected!"
  | some name_char =>
    (match xml.FirstChildElement "inertial" with
     | some i => (Inertial.fromXml ext i).bind (fun v => .ok (some v))
     | none => .ok none).bind fun inertial =>
    (forEachChildElement "visual" xml (Visual.fromXml ext) xml.node.children []).bind
      fun visuals =>
    (forEachChildElement "collision" xml (Collision.fromXml ext) xml.node.children []).bind
      fun collisions =>
    .ok ⟨name_char, inertial, visuals, collisions⟩

/-- `Link::fromXml(xml)` of `link.cpp`: after `link` is populated the body ends
with no `return` statement. -/
def Link.fromXml {F : Type} [Zero F] [One F] (ext : Externals F)
    (xml : TiXmlElement) : Outcome (Link F) :=
  (Link.populate ext xml).bind fun _link =>
  .undefined .missingReturn

/-! ## A sample instance of the external functions

The theorems below hold for every `Externals`. To exhibit concrete runs, the
external functions are instantiated over the integers, following the component
design of the specification. -/

namespace Sample

/-- Sample `std::stod`: a non-empty string of decimal digits is its value;
anything else throws with `what()` equal to "stod". -/
def stod (s : String) : Except String Int :=
  if s.data ≠ [] ∧ s.data.all Char.isDigit then
    .ok (s.data.foldl (fun n c => 10 * n + (c.toNat - 48 : Nat)) (0 : Nat) : Nat)
  else .error "stod"

/-- Tokens of a character list separated by blanks; `cur` is the token being
read, in reverse. Empty tokens are dropped. -/
def tokens : List Char → List Char → List String
  | [], cur => if cur = [] then [] else [String.mk cur.reverse]
  | c :: rest, cur =>
    if c = ' ' then
      (if cur = [] then [] else [String.mk cur.reverse]) ++ tokens rest []
    else tokens rest (c :: cur)

/-- Parse every token with `stod`; `none` when one of them is not a number. -/
def numbers (s : String) : Option (List Int) :=
  (tokens s.data []).mapM (fun t => (stod t).toOption)

/-- Modelled from the spec: `Color::fromColorStr` is declared in `urdf/common.h`
and defined outside `link.cpp` and the two headers; it requires exactly 4 float tokens. -/
def Color_fromColorStr (s : String) : Outcome (Color Int) :=
  match numbers s with
  | some [r, g, b, a] => .ok ⟨r, g, b, a⟩
  | _ => Outcome.parseError ("color [" ++ s ++ "] needs 4 numbers")

/-- Modelled from the spec: `Vector3::fromVecStr` is declared in `urdf/common.h`
and defined outside `link.cpp` and the two headers; it requires exactly 3 float64 tokens. -/
def Vector3_fromVecStr (s : String) : Outcome (Vector3 Int) :=
  match numbers s with
  | some [x, y, z] => .ok ⟨x, y, z⟩
  | _ => Outcome.parseError ("vector [" ++ s ++ "] needs 3 numbers")

/-- Modelled from the spec: `Transform::fromXml` is declared in `urdf/common.h` and
defined outside `link.cpp` and the two headers; an optional "xyz" attribute (else the zero
vector) and an optional "rpy" attribute (else the identity rotation). Over the
integers the only angles whose rotation exists are "0 0 0". -/
def Transform_fromXml (o : TiXmlElement) : Outcome (Transform Int) :=
  (match o.Attribute "xyz" with
   | some s => Vector3_fromVecStr s
   | none => .ok (Vector3.default Int)).bind fun position =>
  (match o.Attribute "rpy" with
   | some s =>
     (Vector3_fromVecStr s).bind fun rpy =>
       if rpy = Vector3.default Int then .ok (Rotation.default Int)
       else Outcome.parseError ("rotation [" ++ s ++ "] is not exact")
   | none => .ok (Rotation.default Int)).bind fun rotation =>
  .ok ⟨position, rotation⟩

/-- Modelled from the spec: `Geometry::fromXml` is declared in `urdf/geometry.h`
and defined outside `link.cpp` and the two headers; of the four shapes the sample knows
the sphere (attribute "radius") and the box (attribute "size"), first match
wins, and it fails when neither child is present. -/
def Geometry_fromXml (g : TiXmlElement) : Outcome (Geometry Int) :=
  match g.node.children.find? (fun c => c.value == "sphere" || c.value == "box") with
  | some c =>
    if c.value == "sphere" then
      match (c.Attribute "radius").bind (fun s => (stod s).toOption) with
      | some r => .ok (.Sphere r)
      | none => Outcome.parseError "sphere needs a radius"
    else
      match c.Attribute "size" with
      | some s => (Vector3_fromVecStr s).bind (fun d => .ok (.Box d))
      | none => Outcome.parseError "box needs a size"
  | none => Outcome.parseError "geometry needs a shape"

/-- The sample external functions. -/
def ext : Externals Int :=
  { stod := stod
    Color_fromColorStr := Color_fromColorStr
    Transform_fromXml := Transform_fromXml
    Geometry_fromXml := Geometry_fromXml }

end Sample

/-! ## Vocabulary of the statements -/

/-- The message `msg` contains `part` as a contiguous piece. -/
def Contains (msg part : String) : Prop :=
  ∃ before after : String, msg = before ++ part ++ after

/-- The node is nested, at any depth, inside an element tagged "link", and the
nearest such element has the name attribute `name`: `inner` are the enclosing
elements below that link, `outer` the ones above it. -/
def EnclosedByLink (xml : TiXmlElement) (name : String) : Prop :=
  ∃ (inner : List XmlNode) (l : XmlNode) (outer : List XmlNode),
    xml.parent.elements = inner ++ l :: outer ∧
    (∀ a ∈ inner, a.value ≠ "link") ∧ l.value = "link" ∧ l.Attribute "name" = some name

/-- The context lookup `getParentLinkName(xml)` returns the name `name`. -/
def LookupReturns (xml : TiXmlElement) (name : String) : Prop :=
  getParentLinkName xml = .ok (some name)

/-- The `what()` of the first of the given values that `std::stod` rejects, if
there is one. -/
def firstRejected {F : Type} (ext : Externals F) : List String → Option String
  | [] => none
  | s :: rest =>
    match ext.stod s with
    | .error what => some what
    | .ok _ => firstRejected ext rest

/-- The six attributes that an inertia element must carry. -/
def inertiaAttributes : List String := ["ixx", "ixy", "ixz", "iyy", "iyz", "izz"]

/-- Those of the six inertia attributes that the inertia child of an inertial
node supplies. -/
def suppliedInertiaAttributes (xml : TiXmlElement) : List String :=
  match xml.FirstChildElement "inertia" with
  | some inertia_xml => inertiaAttributes.filter (fun a => (inertia_xml.Attribute a).isSome)
  | none => []

/-- The origin child, when there is one, is built by `Transform::fromXml`
without failure. -/
def OriginBuilds {F : Type} (ext : Externals F) (xml : TiXmlElement) : Prop :=
  ∀ o, xml.FirstChildElement "origin" = some o → ∃ t, ext.Transform_fromXml o = .ok t

/-- The geometry child, when there is one, is built by `Geometry::fromXml`
without failure. -/
def GeometryBuilds {F : Type} (ext : Externals F) (xml : TiXmlElement) : Prop :=
  ∀ g, xml.FirstChildElement "geometry" = some g → ∃ v, ext.Geometry_fromXml g = .ok v

/-! ## Sample documents -/

namespace Sample

/-- A material node without a name that has a texture and a colour child with a
malformed rgba value. -/
def namelessMaterial : TiXmlElement :=
  ⟨.mk "material" [] [.mk "texture" [("filename", "wood.png")] [],
                       .mk "color" [("rgba", "1 0 zero")] []], .null⟩

/-- A material node that has only a name; its colour child lacks rgba. -/
def nameOnlyMaterial : TiXmlElement :=
  ⟨.mk "material" [("name", "steel")] [.mk "color" [] []], .null⟩

/-- The material named "red" with colour "1 0 0 1" and no texture. -/
def redMaterial : TiXmlElement :=
  ⟨.mk "material" [("name", "red")] [.mk "color" [("rgba", "1 0 0 1")] []], .null⟩

/-- The robot element at the root of the sample document. -/
def robotNode : XmlNode := .mk "robot" [("name", "arm")] []

/-- The link named "base" with one empty visual and one empty collision. -/
def baseNode : XmlNode :=
  .mk "link" [("name", "base")] [.mk "visual" [] [], .mk "collision" [] []]

/-- The link "base" as an element of the robot, which is the root of a document. -/
def baseLink : TiXmlElement := ⟨baseNode, .element robotNode .document⟩

/-- The parent chain of a child of the link "base". -/
def inBase : Parent := .element baseNode (.element robotNode .document)

/-- The parent chain of a child of the link "base" when the link has no parent:
a tree that is not part of a document. -/
def inFreeBase : Parent := .element baseNode .null

/-- The parent chain of a child of the link "base" when the link lies in the
robot "arm" and the robot has no parent. -/
def inFreeRobot : Parent := .element baseNode (.element robotNode .null)

/-- The same element as a child of the link "base" that has no parent. -/
def inFreeTree (e : TiXmlElement) : TiXmlElement := ⟨e.node, inFreeBase⟩

/-- The same element as a child of the link "base" of the robot "arm" that has no
parent. -/
def inFreeRobotTree (e : TiXmlElement) : TiXmlElement := ⟨e.node, inFreeRobot⟩

/-- The empty collision of the link "base". -/
def emptyCollision : TiXmlElement := ⟨.mk "collision" [] [], inBase⟩

/-- An inertial node of the link "base" with the given children. -/
def inertial (children : List XmlNode) : TiXmlElement :=
  ⟨.mk "inertial" [] children, inBase⟩

/-- A valid mass element. -/
def mass3 : XmlNode := .mk "mass" [("value", "3")] []

/-- Inertial node whose inertia supplies ixx only. -/
def inertialOnlyIxx : TiXmlElement :=
  inertial [mass3, .mk "inertia" [("ixx", "1")] []]

/-- Inertial node whose inertia supplies every attribute but izz. -/
def inertialAllButIzz : TiXmlElement :=
  inertial [mass3, .mk "inertia"
    [("ixx", "1"), ("ixy", "0"), ("ixz", "0"), ("iyy", "1"), ("iyz", "0")] []]

/-- Inertial node without a mass child. -/
def inertialNoMass : TiXmlElement := inertial []

/-- Inertial node whose mass child has no value attribute. -/
def inertialMassNoValue : TiXmlElement := inertial [.mk "mass" [] []]

/-- Inertial node whose mass value is not a number. -/
def inertialMassBad : TiXmlElement := inertial [.mk "mass" [("value", "heavy")] []]

/-- A mass element two levels below the link "forearm", which lies in the robot
"arm", the root of a document. -/
def nestedMass : TiXmlElement :=
  ⟨mass3, .element (.mk "inertial" [] [mass3])
    (.element (.mk "link" [("name", "forearm")] []) (.element robotNode .document))⟩

/-- The same mass element when the robot "arm" has no parent: the tree is not part
of a document. -/
def nestedMassFree : TiXmlElement :=
  ⟨mass3, .element (.mk "inertial" [] [mass3])
    (.element (.mk "link" [("name", "forearm")] []) (.element robotNode .null))⟩

/-- An inertial element that has no parent at all. -/
def orphan : TiXmlElement := ⟨.mk "inertial" [] [], .null⟩

/-- An inertial element directly below the robot, which is the root of a
document: no enclosing element is tagged "link". -/
def outsideLinkInDocument : TiXmlElement :=
  ⟨.mk "inertial" [] [], .element robotNode .document⟩

/-- An inertial element directly below a robot element that has no parent. -/
def outsideLinkNoDocument : TiXmlElement :=
  ⟨.mk "inertial" [] [], .element robotNode .null⟩

/-- A visual of the link "base" whose material child has no name. -/
def visualNamelessMaterial : TiXmlElement :=
  ⟨.mk "visual" [] [.mk "material" [] [.mk "color" [("rgba", "1 0 0 1")] []]], inBase⟩

/-- A visual of the link "base" whose material child has a name and nothing else. -/
def visualMaterialReference : TiXmlElement :=
  ⟨.mk "visual" [("name", "shell")] [.mk "material" [("name", "steel")] []], inBase⟩

end Sample



/-! ## Quaternion operations and `clear()` -/

/-- Modelled from the spec: `Rotation::operator*(const Rotation&)` is declared in
`urdf/common.h` and defined outside `link.cpp` and the two headers; it is the
standard non-commutative Hamilton product of two quaternions (x, y, z, w). -/
def Rotation.mul {F : Type} [Add F] [Sub F] [Mul F] (p q : Rotation F) : Rotation F :=
  { x := p.w * q.x + p.x * q.w + p.y * q.z - p.z * q.y
    y := p.w * q.y - p.x * q.z + p.y * q.w + p.z * q.x
    z := p.w * q.z + p.x * q.y - p.y * q.x + p.z * q.w
    w := p.w * q.w - p.x * q.x - p.y * q.y - p.z * q.z }

/-- Modelled from the spec: `Rotation::getInverse()` is declared in `urdf/common.h`
and defined outside `link.cpp` and the two headers; it is the conjugate (x, y, z
negated, w kept). -/
def Rotation.getInverse {F : Type} [Neg F] (q : Rotation F) : Rotation F :=
  { x := -q.x, y := -q.y, z := -q.z, w := q.w }

/-- The method `Vector3::clear()`. -/
def Vector3.clear {F : Type} [Zero F] (_v : Vector3 F) : Vector3 F :=
  { x := 0, y := 0, z := 0 }

/-- The method `Rotation::clear()`. -/
def Rotation.clear {F : Type} [Zero F] [One F] (_q : Rotation F) : Rotation F :=
  { x := 0, y := 0, z := 0, w := 1 }

/-- The method `Color::clear()`. -/
def Color.clear {F : Type} [Zero F] [One F] (_c : Color F) : Color F :=
  { r := 0, g := 0, b := 0, a := 1 }

/-- The method `Transform::clear()`: both members are cleared. -/
def Transform.clear {F : Type} [Zero F] [One F] (t : Transform F) : Transform F :=
  { position := t.position.clear, rotation := t.rotation.clear }

/-- The enumeration `GeometryType` of `urdf/geometry.h`. -/
inductive GeometryType where
  | SPHERE
  | BOX
  | CYLINDER
  | MESH
  deriving DecidableEq, Repr

/-- The class `Mesh` of `urdf/geometry.h` as an object: the type tag inherited
from `Geometry`, the file name and the scale. -/
structure Mesh (F : Type) where
  type : GeometryType
  filename : String
  scale : Vector3 F
  deriving DecidableEq, Repr

/-- Default constructor `Mesh()`: scale (1, 1, 1), tag `MESH`, empty file name. -/
def Mesh.default (F : Type) [One F] : Mesh F :=
  { type := .MESH, filename := "", scale := ⟨1, 1, 1⟩ }

/-- The method `Mesh::clear()`: the file name is emptied and the three scale
components are set to 1; the type tag is not touched. -/
def Mesh.clear {F : Type} [One F] (m : Mesh F) : Mesh F :=
  { m with filename := "", scale := { m.scale with x := 1, y := 1, z := 1 } }

/-! ## More sample documents -/

namespace Sample

/-- A link without a name whose inertial child has no mass and whose visual has
a malformed origin. -/
def namelessLink : TiXmlElement :=
  ⟨.mk "link" [] [.mk "inertial" [] [],
                   .mk "visual" [] [.mk "origin" [("xyz", "1 2")] []],
                   .mk "collision" [] []], .element robotNode .document⟩

/-- An origin element whose xyz has two tokens only. -/
def badOrigin : XmlNode := .mk "origin" [("xyz", "1 2")] []

/-- A geometry element whose sphere has a radius that is not a number. -/
def badGeometry : XmlNode := .mk "geometry" [] [.mk "sphere" [("radius", "big")] []]

/-- A complete inertia element. -/
def inertia6 : XmlNode :=
  .mk "inertia" [("ixx", "1"), ("ixy", "0"), ("ixz", "0"), ("iyy", "1"), ("iyz", "0"),
    ("izz", "1")] []

/-- An inertial node of the link "base" that is complete but for its malformed
origin. -/
def inertialBadOrigin : TiXmlElement := inertial [badOrigin, mass3, inertia6]

/-- An inertial node of the link "base" whose inertia entry iyy is not a number. -/
def inertialBadInertia : TiXmlElement :=
  inertial [mass3, .mk "inertia" [("ixx", "1"), ("ixy", "0"), ("ixz", "0"), ("iyy", "one"),
    ("iyz", "0"), ("izz", "1")] []]

/-- A visual of the link "base" with a malformed origin. -/
def visualBadOrigin : TiXmlElement := ⟨.mk "visual" [] [badOrigin], inBase⟩

/-- A collision of the link "base" with a malformed origin. -/
def collisionBadOrigin : TiXmlElement := ⟨.mk "collision" [] [badOrigin], inBase⟩

/-- A visual of the link "base" with a malformed geometry. -/
def visualBadGeometry : TiXmlElement := ⟨.mk "visual" [] [badGeometry], inBase⟩

/-- A collision of the link "base" with a malformed geometry. -/
def collisionBadGeometry : TiXmlElement := ⟨.mk "collision" [] [badGeometry], inBase⟩

/-- The material named "red" with a texture and a colour whose rgba is malformed. -/
def redMaterialBadColor : TiXmlElement :=
  ⟨.mk "material" [("name", "red")] [.mk "texture" [("filename", "wood.png")] [],
                                      .mk "color" [("rgba", "1 0 zero")] []], .null⟩

end Sample

/-! ## The `nonboost` utilities and `M_PI` of `urdf/common.h`

A `std::string` is the list of its characters. -/

/-- The fallback `#define M_PI 3.141592538`, as the exact decimal that is written. -/
def M_PI : ℚ := 3141592538 / 1000000000

namespace nonboost

/-- The string `s` begins with the characters of `d`. -/
def startsWith : List Char → List Char → Bool
  | [], _ => true
  | _ :: _, [] => false
  | a :: d, b :: s => a == b && startsWith d s

/-- The call `s.find(delimiter)`: the least position at which `delimiter` occurs
in `s`, or `npos` (`none`) when it does not occur. The empty delimiter occurs at
position 0 of every string. -/
def find : List Char → List Char → Option Nat
  | [], delimiter => if delimiter.isEmpty then some 0 else none
  | c :: s, delimiter =>
    if startsWith delimiter (c :: s) then some 0 else (find s delimiter).map (· + 1)

/-- The function `split(tokens, s, delimiter)`, run for at most `fuel` tests of
the loop condition; the result is the final `tokens`, or `none` when the loop is
still running after `fuel` tests. -/
def split : Nat → List (List Char) → List Char → List Char → Option (List (List Char))
  | 0, _, _, _ => none
  | fuel + 1, tokens, s, delimiter =>
    match find s delimiter with
    | some pos =>
      -- tokens.push_back(s.substr(0, pos)); s.erase(0, pos + delimiter.length());
      split fuel (tokens ++ [s.take pos]) (s.drop (pos + delimiter.length)) delimiter
    | none => some (tokens ++ [s])

/-- One pass through the body of the loop of `split`: the string that remains
after `s.erase(0, pos + delimiter.length())`, or `none` when the loop is left. -/
def splitRemaining (s delimiter : List Char) : Option (List Char) :=
  (find s delimiter).map (fun pos => s.drop (pos + delimiter.length))

/-- The tokens joined with the delimiter between neighbours. -/
def joinWith (d : List Char) : List (List Char) → List Char
  | [] => []
  | [t] => t
  | t :: rest => t ++ d ++ joinWith d rest

/-- The string `t` contains `d` as a substring. -/
def Occurs (d t : List Char) : Prop := ∃ a b : List Char, t = a ++ d ++ b

/-- Number of non-overlapping occurrences of `d` met when the string is scanned
from left to right; `skip` characters are still covered by the occurrence met
last. -/
def countFrom (d : List Char) : Nat → List Char → Nat
  | _, [] => 0
  | skip + 1, _ :: s => countFrom d skip s
  | 0, c :: s =>
    if startsWith d (c :: s) then 1 + countFrom d (d.length - 1) s else countFrom d 0 s

/-- Number of non-overlapping left-to-right occurrences of `d` in `s`. -/
def countOccurrences (d s : List Char) : Nat := countFrom d 0 s

namespace algorithm

/-- The function `std::isspace` in the default "C" locale: space, form feed, line
feed, carriage return, horizontal tab and vertical tab. -/
def isspace (ch : Char) : Bool :=
  ch == ' ' || ch == '\t' || ch == '\n' || ch == '\r' || ch.toNat == 11 || ch.toNat == 12

/-- The function `ltrim(s)`: erase from the beginning up to the first character
that is not white space. -/
def ltrim (s : List Char) : List Char := s.dropWhile isspace

/-- The function `rtrim(s)`: search from the end backwards for the first
character that is not white space and erase what lies behind it. -/
def rtrim (s : List Char) : List Char := (s.reverse.dropWhile isspace).reverse

/-- The function `trim(s)`: `rtrim(s)` and then `ltrim(s)`. -/
def trim (s : List Char) : List Char := ltrim (rtrim s)

end algorithm

end nonboost

/-! ## Basic facts about outcomes and the document accessors -/

@[simp] theorem Outcome.bind_ok {α β : Type} (a : α) (f : α → Outcome β) :
    (Outcome.ok a).bind f = f a := rfl

@[simp] theorem Outcome.bind_throws {α β : Type} (e : Exception) (f : α → Outcome β) :
    (Outcome.throws e : Outcome α).bind f = Outcome.throws e := rfl

@[simp] theorem Outcome.bind_undefined {α β : Type} (u : Undefined) (f : α → Outcome β) :
    (Outcome.undefined u : Outcome α).bind f = Outcome.undefined u := rfl

@[simp] theorem Outcome.bind_parseError {α β : Type} (msg : String) (f : α → Outcome β) :
    (Outcome.parseError msg : Outcome α).bind f = Outcome.parseError msg := rfl

@[simp] theorem Outcome.catchURDFParseError_ok {α : Type} (a : α)
    (handler : String → Outcome α) :
    Outcome.catchURDFParseError (Outcome.ok a) handler = Outcome.ok a := rfl

@[simp] theorem Outcome.catchBadLexicalCast_ok {α : Type} (a : α)
    (handler : String → Outcome α) :
    Outcome.catchBadLexicalCast (Outcome.ok a) handler = Outcome.ok a := rfl

/-- The element found by `FirstChildElement(tag)` is a child, carries the tag, and
has the element it was found in as parent. -/
theorem TiXmlElement.FirstChildElement_some {e c : TiXmlElement} {tag : String}
    (h : e.FirstChildElement tag = some c) :
    c.node ∈ e.node.children ∧ c.node.value = tag ∧ c.parent = .element e.node e.parent := by
  unfold TiXmlElement.FirstChildElement at h
  rcases Option.map_eq_some'.mp h with ⟨n, hn, rfl⟩
  refine ⟨List.mem_of_find?_eq_some hn, ?_, rfl⟩
  have := List.find?_some hn
  simpa using this

/-- When no child carrying `tag` has attribute `attr`, neither has the element
found by `FirstChildElement(tag)`. -/
theorem TiXmlElement.FirstChildElement_attribute_none {e c : TiXmlElement}
    {tag attr : String}
    (hall : ∀ n ∈ e.node.children, n.value = tag → n.Attribute attr = none)
    (h : e.FirstChildElement tag = some c) : c.Attribute attr = none := by
  obtain ⟨hmem, hval, _⟩ := TiXmlElement.FirstChildElement_some h
  exact hall c.node hmem hval

/-! ## Material -/

/-- The outcome of `Material::fromXml` on a named node in terms of what the
texture and colour children supply. -/
theorem Material.fromXml_name_only {F : Type} (ext : Externals F) (xml : TiXmlElement)
    (n : String) (only_name_is_ok : Bool)
    (hname : xml.Attribute "name" = some n)
    (htex : ∀ t, xml.FirstChildElement "texture" = some t → t.Attribute "filename" = none)
    (hcol : ∀ c, xml.FirstChildElement "color" = some c → c.Attribute "rgba" = none) :
    Material.fromXml ext xml only_name_is_ok =
      if only_name_is_ok then .ok ⟨n, none, none⟩
      else Outcome.parseError
        ("Material [" ++ n ++ "] has neither a texture nor a color defined!") := by
  unfold Material.fromXml
  cases ht : xml.FirstChildElement "texture" with
  | some t =>
    cases hc : xml.FirstChildElement "color" with
    | some c =>
      cases only_name_is_ok <;> simp [hname, htex t ht, hcol c hc, Material.default]
    | none => cases only_name_is_ok <;> simp [hname, htex t ht, Material.default]
  | none =>
    cases hc : xml.FirstChildElement "color" with
    | some c => cases only_name_is_ok <;> simp [hname, hcol c hc, Material.default]
    | none => cases only_name_is_ok <;> simp [hname, Material.default]

/-- C1: a material node without a "name" attribute makes `Material::fromXml` throw
the missing-name parse error, in both modes and whatever the texture and colour
children are (also when the colour child has a malformed rgba value, for any
behaviour of `Color::fromColorStr`). -/
theorem Material.material_without_name {F : Type} (ext : Externals F) (xml : TiXmlElement)
    (only_name_is_ok : Bool) (hname : xml.Attribute "name" = none) :
    Material.fromXml ext xml only_name_is_ok =
      Outcome.parseError "Error! Material without a name attribute detected!" := by
  unfold Material.fromXml
  rw [hname]

theorem Material.material_without_name_witness :
    Sample.namelessMaterial.Attribute "name" = none ∧
    Sample.ext.Color_fromColorStr "1 0 zero"
      = Outcome.parseError "color [1 0 zero] needs 4 numbers" ∧
    Material.fromXml Sample.ext Sample.namelessMaterial false
      = Outcome.parseError "Error! Material without a name attribute detected!" :=
  ⟨by decide, by decide,
   Material.material_without_name Sample.ext Sample.namelessMaterial false (by decide)⟩

/-- C2: a material node with name attribute `n` in which no colour child has an
rgba attribute and no texture child has a filename attribute: in strict mode
`Material::fromXml` throws a parse error, in name-only mode it returns the
material that has the name `n` and nothing else. -/
theorem Material.fromXml_neither_color_nor_texture {F : Type} (ext : Externals F)
    (xml : TiXmlElement) (n : String)
    (hname : xml.Attribute "name" = some n)
    (hcol : ∀ c ∈ xml.node.children, c.value = "color" → c.Attribute "rgba" = none)
    (htex : ∀ t ∈ xml.node.children, t.value = "texture" → t.Attribute "filename" = none) :
    Material.fromXml ext xml false =
        Outcome.parseError
          ("Material [" ++ n ++ "] has neither a texture nor a color defined!") ∧
    Material.fromXml ext xml true = .ok ⟨n, none, none⟩ := by
  have key := fun b => Material.fromXml_name_only ext xml n b hname
    (fun t ht => TiXmlElement.FirstChildElement_attribute_none htex ht)
    (fun c hc => TiXmlElement.FirstChildElement_attribute_none hcol hc)
  exact ⟨by simpa using key false, by simpa using key true⟩

theorem Material.fromXml_neither_color_nor_texture_witness :
    Material.fromXml Sample.ext Sample.nameOnlyMaterial false =
        Outcome.parseError "Material [steel] has neither a texture nor a color defined!" ∧
    Material.fromXml Sample.ext Sample.nameOnlyMaterial true = .ok ⟨"steel", none, none⟩ :=
  Material.fromXml_neither_color_nor_texture Sample.ext Sample.nameOnlyMaterial "steel"
    (by decide) (by decide) (by decide)

/-- C3: a material node with name attribute `n`, no texture child, and a colour
child (the first one, which is the one the code reads) whose rgba attribute
`Color::fromColorStr` parses to `col`: `Material::fromXml` returns, in either
mode, the material with name `n`, colour `col` and no texture file name. -/
theorem Material.fromXml_color_only {F : Type} (ext : Externals F) (xml c : TiXmlElement)
    (n rgba : String) (col : Color F) (only_name_is_ok : Bool)
    (hname : xml.Attribute "name" = some n)
    (htex : xml.FirstChildElement "texture" = none)
    (hc : xml.FirstChildElement "color" = some c)
    (hrgba : c.Attribute "rgba" = some rgba)
    (hparse : ext.Color_fromColorStr rgba = .ok col) :
    Material.fromXml ext xml only_name_is_ok = .ok ⟨n, none, some col⟩ := by
  unfold Material.fromXml
  rw [hname, htex, hc]
  simp [hrgba, hparse, Material.default]

theorem Material.fromXml_color_only_witness :
    Material.fromXml Sample.ext Sample.redMaterial false
      = .ok ⟨"red", none, some ⟨1, 0, 0, 1⟩⟩ :=
  Material.fromXml_color_only Sample.ext Sample.redMaterial
    ⟨.mk "color" [("rgba", "1 0 0 1")] [], .element Sample.redMaterial.node .null⟩
    "red" "1 0 0 1" ⟨1, 0, 0, 1⟩ false (by decide) (by rfl) (by rfl) (by decide) (by decide)

/-! ## Context resolution -/

/-- When the context lookup returns `name`, an error message built around the
link name is thrown with `name` in it. -/
theorem throwInLink_of_lookup {α : Type} {xml : TiXmlElement} {name : String}
    (h : LookupReturns xml name) (mk : String → String) :
    (throwInLink xml mk : Outcome α) = Outcome.parseError (mk name) := by
  unfold throwInLink streamParentLinkName
  unfold LookupReturns at h
  rw [h]
  rfl

/-- One step of the walk: the tag plays no part, the walk goes on while there is
a parent. -/
theorem getParentLinkName.walk_element (n : XmlNode) (p : Parent) :
    getParentLinkName.walk (.element n p) =
      if p.isNull then .ok (n.Attribute "name") else getParentLinkName.walk p := by
  rw [getParentLinkName.walk]
  cases p <;> simp [valueIsNotLiteral, Parent.isNull]

/-- Below a document the walk always ends in a null dereference, whatever the
tags of the enclosing elements are. -/
theorem getParentLinkName.walk_in_document (p : Parent) (h : p.inDocument = true) :
    getParentLinkName.walk p = .undefined .nullDereference := by
  induction p with
  | null => simp [Parent.inDocument] at h
  | document => rfl
  | element n q ih =>
    rw [getParentLinkName.walk_element]
    cases q with
    | null => simp [Parent.inDocument] at h
    | document => rfl
    | element m r => exact ih h

/-- In a tree that is not part of a document the walk returns the name attribute
of the topmost element, whatever the tags of the enclosing elements are. -/
theorem getParentLinkName.walk_free (p : Parent) (top : XmlNode)
    (h : p.inDocument = false) (htop : p.elements.getLast? = some top) :
    getParentLinkName.walk p = .ok (top.Attribute "name") := by
  induction p with
  | null => simp [Parent.elements] at htop
  | document => simp [Parent.inDocument] at h
  | element n q ih =>
    rw [getParentLinkName.walk_element]
    cases q with
    | null =>
      simp only [Parent.elements, List.getLast?_singleton, Option.some.injEq] at htop
      subst htop
      rfl
    | document => simp [Parent.inDocument] at h
    | element m r =>
      simp only [Parent.isNull, Bool.false_eq_true, if_false]
      apply ih h
      simpa [Parent.elements, List.getLast?_cons_cons] using htop

/-- The walk never throws: it returns a name or leaves defined behaviour. -/
theorem getParentLinkName.walk_never_throws (p : Parent) (e : Exception) :
    getParentLinkName.walk p ≠ .throws e := by
  induction p with
  | null => simp [getParentLinkName.walk]
  | document => simp [getParentLinkName.walk]
  | element n q ih =>
    rw [getParentLinkName.walk]
    split
    · exact ih
    · simp

/-- An origin child that builds makes the origin part return a transform. -/
theorem originStep_ok {F : Type} [Zero F] [One F] {ext : Externals F} {xml : TiXmlElement}
    (h : OriginBuilds ext xml) :
    ∃ t, originStep xml ext.Transform_fromXml = .ok t := by
  unfold originStep
  cases ho : xml.FirstChildElement "origin" with
  | none => exact ⟨_, rfl⟩
  | some o => exact h o ho

/-- An origin child that builds is not affected by the handler around it. -/
theorem originStep_catch_ok {F : Type} [Zero F] [One F] {ext : Externals F}
    {xml : TiXmlElement} (handler : String → Outcome (Transform F))
    (h : OriginBuilds ext xml) :
    ∃ t, originStep xml
      (fun o => Outcome.catchURDFParseError (ext.Transform_fromXml o) handler) = .ok t := by
  unfold originStep
  cases ho : xml.FirstChildElement "origin" with
  | none => exact ⟨_, rfl⟩
  | some o =>
    obtain ⟨t, ht⟩ := h o ho
    exact ⟨t, by simp [ht]⟩

/-- A geometry child that builds makes the geometry part return. -/
theorem geometryStep_ok {F : Type} {ext : Externals F} {xml : TiXmlElement}
    (h : GeometryBuilds ext xml) : ∃ g, geometryStep ext xml = .ok g := by
  unfold geometryStep
  cases hg : xml.FirstChildElement "geometry" with
  | none => exact ⟨_, rfl⟩
  | some g =>
    obtain ⟨v, hv⟩ := h g hg
    exact ⟨some v, by simp [hv]⟩

/-! ## Inertial -/

/-- A mass child whose value `std::stod` accepts makes the mass part return it. -/
theorem Inertial.massStep_ok {F : Type} {ext : Externals F} {xml mass_xml : TiXmlElement}
    {v : String} {m : F}
    (hmass : xml.FirstChildElement "mass" = some mass_xml)
    (hvalue : mass_xml.Attribute "value" = some v) (hvalid : ext.stod v = .ok m) :
    Inertial.massStep ext xml = .ok m := by
  unfold Inertial.massStep
  rw [hmass]
  simp [hvalue, lexical_cast, hvalid]

/-- An inertia child that lacks one of the six attributes makes the inertia part
throw the fixed message that lists the six required attributes. -/
theorem Inertial.inertiaStep_incomplete {F : Type} {ext : Externals F}
    {xml inertia_xml : TiXmlElement} {link missing : String} (origin : Transform F) (m : F)
    (hlink : LookupReturns xml link)
    (hinertia : xml.FirstChildElement "inertia" = some inertia_xml)
    (hmem : missing ∈ inertiaAttributes)
    (hmissing : inertia_xml.Attribute missing = none) :
    Inertial.inertiaStep ext xml origin m =
      Outcome.parseError ("Error while parsing link '" ++ link
        ++ "' <inertia> element must have ixx,ixy,ixz,iyy,iyz,izz attributes!") := by
  unfold Inertial.inertiaStep
  rw [hinertia]
  simp only []
  split
  · rename_i h1 h2 h3 h4 h5 h6
    simp only [inertiaAttributes, List.mem_cons, List.mem_singleton, List.not_mem_nil,
      or_false] at hmem
    rcases hmem with rfl | rfl | rfl | rfl | rfl | rfl
    · rw [hmissing] at h1; cases h1
    · rw [hmissing] at h2; cases h2
    · rw [hmissing] at h3; cases h3
    · rw [hmissing] at h4; cases h4
    · rw [hmissing] at h5; cases h5
    · rw [hmissing] at h6; cases h6
  · exact throwInLink_of_lookup hlink _

/-- C4, as the code has it: an inertial node for which the context lookup
`getParentLinkName` returns the name `link`, whose origin (when present) builds,
with a mass value that `std::stod` accepts and an inertia child that lacks at
least one of ixx, ixy, ixz, iyy, iyz, izz, makes `Inertial::fromXml` throw a parse
error whose message carries `link` and lists the six required attributes; the
message is the same whichever attributes were supplied. -/
theorem Inertial.fromXml_incomplete_inertia {F : Type} [Zero F] [One F]
    (ext : Externals F) (xml mass_xml inertia_xml : TiXmlElement)
    (link v missing : String) (m : F)
    (hlink : LookupReturns xml link)
    (horigin : OriginBuilds ext xml)
    (hmass : xml.FirstChildElement "mass" = some mass_xml)
    (hvalue : mass_xml.Attribute "value" = some v)
    (hvalid : ext.stod v = .ok m)
    (hinertia : xml.FirstChildElement "inertia" = some inertia_xml)
    (hmem : missing ∈ inertiaAttributes)
    (hmissing : inertia_xml.Attribute missing = none) :
    Inertial.fromXml ext xml =
      Outcome.parseError ("Error while parsing link '" ++ link
        ++ "' <inertia> element must have ixx,ixy,ixz,iyy,iyz,izz attributes!") := by
  obtain ⟨origin, ho⟩ := originStep_ok horigin
  unfold Inertial.fromXml
  rw [ho, Outcome.bind_ok, Inertial.massStep_ok hmass hvalue hvalid, Outcome.bind_ok]
  exact Inertial.inertiaStep_incomplete origin m hlink hinertia hmem hmissing

/-- For the children of the link "base" that has no parent, the lookup returns
"base". -/
theorem Sample.lookup_inFreeBase (n : XmlNode) :
    LookupReturns ⟨n, Sample.inFreeBase⟩ "base" := rfl

theorem Inertial.fromXml_incomplete_inertia_witness :
    Inertial.fromXml Sample.ext (Sample.inFreeTree Sample.inertialAllButIzz) =
      Outcome.parseError ("Error while parsing link '" ++ "base"
        ++ "' <inertia> element must have ixx,ixy,ixz,iyy,iyz,izz attributes!") :=
  Inertial.fromXml_incomplete_inertia Sample.ext (Sample.inFreeTree Sample.inertialAllButIzz)
    ⟨Sample.mass3, .element Sample.inertialAllButIzz.node Sample.inFreeBase⟩
    ⟨.mk "inertia" [("ixx", "1"), ("ixy", "0"), ("ixz", "0"), ("iyy", "1"), ("iyz", "0")] [],
      .element Sample.inertialAllButIzz.node Sample.inFreeBase⟩
    "base" "3" "izz" 3
    (Sample.lookup_inFreeBase _) (by intro o ho; cases ho) rfl (by decide) rfl rfl
    (by decide) (by decide)

/-- C4, as the claim has it, fails: two inertial nodes of the same link "base" (a
link that is not part of a document, so that the lookup of its name returns)
that supply different subsets of the inertia attributes (ixx alone; all but izz)
get the same failure message, which lists all six attributes. -/
theorem Inertial.fromXml_message_ignores_supplied :
    suppliedInertiaAttributes (Sample.inFreeTree Sample.inertialOnlyIxx) = ["ixx"] ∧
    suppliedInertiaAttributes (Sample.inFreeTree Sample.inertialAllButIzz)
      = ["ixx", "ixy", "ixz", "iyy", "iyz"] ∧
    Inertial.fromXml Sample.ext (Sample.inFreeTree Sample.inertialOnlyIxx) =
      Outcome.parseError ("Error while parsing link 'base' <inertia> element must have "
        ++ "ixx,ixy,ixz,iyy,iyz,izz attributes!") ∧
    Inertial.fromXml Sample.ext (Sample.inFreeTree Sample.inertialAllButIzz) =
      Inertial.fromXml Sample.ext (Sample.inFreeTree Sample.inertialOnlyIxx) := by
  decide

/-- C7, on the code: for the inertial nodes of the link "base" of the robot "arm"
in a document, with no mass child, with a mass child without value, and with a
mass value that is not a number, `Inertial::fromXml` throws nothing: the lookup of
the link name passes the link and reads through the null `ToElement()` of the
document. When the robot has no parent, the three messages are thrown with the
name of the robot, "arm", where the name of the link, "base", should stand. -/
theorem Inertial.mass_failures_lose_link :
    (Inertial.fromXml Sample.ext Sample.inertialNoMass = .undefined .nullDereference ∧
     Inertial.fromXml Sample.ext Sample.inertialMassNoValue = .undefined .nullDereference ∧
     Inertial.fromXml Sample.ext Sample.inertialMassBad = .undefined .nullDereference) ∧
    (Inertial.fromXml Sample.ext (Sample.inFreeRobotTree Sample.inertialNoMass) =
       Outcome.parseError
         "Error while parsing link 'arm' inertial element must have a <mass> element!" ∧
     Inertial.fromXml Sample.ext (Sample.inFreeRobotTree Sample.inertialMassNoValue) =
       Outcome.parseError
         "Error while parsing link 'arm' <mass> element must have a value attribute!" ∧
     Inertial.fromXml Sample.ext (Sample.inFreeRobotTree Sample.inertialMassBad) =
       Outcome.parseError
         "Error while parsing link 'arm': inertial mass [heavy] is not a valid double: stod!") := by
  decide

/-! ## Context resolution: the claims -/

/-- The sample mass element is nested in the link "forearm", in the document and
in the tree without a document alike. -/
theorem Sample.nestedMass_enclosed :
    EnclosedByLink Sample.nestedMass "forearm" ∧
    EnclosedByLink Sample.nestedMassFree "forearm" :=
  ⟨⟨[.mk "inertial" [] [Sample.mass3]], .mk "link" [("name", "forearm")] [],
      [Sample.robotNode], rfl, by decide, rfl, rfl⟩,
   ⟨[.mk "inertial" [] [Sample.mass3]], .mk "link" [("name", "forearm")] [],
      [Sample.robotNode], rfl, by decide, rfl, rfl⟩⟩

/-- C8, on the code: the loop test of `getParentLinkName` compares addresses and
never sees the tag, so the walk does not stop at the enclosing link. For the mass
element nested in the link "forearm" of the robot "arm", the walk passes the link
and the robot and reads through the null `ToElement()` of the document; when the
robot has no parent it returns "arm", the name of the topmost element, and not
"forearm". -/
theorem getParentLinkName_passes_link :
    getParentLinkName Sample.nestedMass = .undefined .nullDereference ∧
    getParentLinkName Sample.nestedMassFree = .ok (some "arm") ∧
    getParentLinkName Sample.nestedMassFree ≠ .ok (some "forearm") := by
  decide

/-- In every document `getParentLinkName` ends in a null dereference, and in every
tree without a document it returns the name attribute of the topmost element:
the tags of the enclosing elements play no part. -/
theorem getParentLinkName_ignores_tags (c : TiXmlElement) :
    (c.parent.inDocument = true → getParentLinkName c = .undefined .nullDereference) ∧
    (∀ top, c.parent.inDocument = false → c.parent.elements.getLast? = some top →
      getParentLinkName c = .ok (top.Attribute "name")) :=
  ⟨getParentLinkName.walk_in_document c.parent,
   fun top h htop => getParentLinkName.walk_free c.parent top h htop⟩

/-- C9, on the code: without an enclosing link no error is raised. For an element
with no parent, `ToElement()` is called on the null `Parent()`; below the root of
a document the walk reaches the document, whose `ToElement()` is null, and reads
its tag; below a root element without a document the walk ends at the root and
returns the name of the robot as if it were the link. -/
theorem getParentLinkName_without_link :
    getParentLinkName Sample.orphan = .undefined .nullDereference ∧
    getParentLinkName Sample.outsideLinkInDocument = .undefined .nullDereference ∧
    getParentLinkName Sample.outsideLinkNoDocument = .ok (some "arm") := by
  decide

/-- No input makes `getParentLinkName` raise an error: the function body has no
`throw`. -/
theorem getParentLinkName_never_throws (c : TiXmlElement) (e : Exception) :
    getParentLinkName c ≠ .throws e :=
  getParentLinkName.walk_never_throws c.parent e

/-! ## Visual -/

/-- C10, on the code: for the visual of the link "base" (robot "arm", in a
document) whose material child has no name, `Visual::fromXml` throws nothing: the
lookup of the link name reads through the null `ToElement()` of the document.
When the robot has no parent the message is thrown with "arm" where the name of
the link should stand. For a material child with the name "steel" and nothing
else the visual is returned with material name "steel" and the inline material
that has the name only. -/
theorem Visual.material_name_lookup :
    Visual.fromXml Sample.ext Sample.visualNamelessMaterial = .undefined .nullDereference ∧
    Visual.fromXml Sample.ext (Sample.inFreeRobotTree Sample.visualNamelessMaterial) =
      Outcome.parseError
        "Error while parsing link 'arm': visual material must contain a name attribute!" ∧
    Visual.fromXml Sample.ext Sample.visualMaterialReference =
      .ok ⟨some "shell", Transform.default Int, none, some "steel",
        some ⟨"steel", none, none⟩⟩ := by
  decide

/-! ## Collision and Link: the missing return -/

/-- C6, on the code: on the empty collision of the link "base" the body of
`Collision::fromXml` populates the collision (identity origin, no geometry, no
name) and then ends without returning it. -/
theorem Collision.collision_missing_return :
    Collision.populate Sample.ext Sample.emptyCollision
      = .ok ⟨none, Transform.default Int, none⟩ ∧
    Collision.fromXml Sample.ext Sample.emptyCollision = .undefined .missingReturn := by
  decide

/-- No input makes `Collision::fromXml` return a value. -/
theorem Collision.collision_never_returns {F : Type} [Zero F] [One F] (ext : Externals F)
    (xml : TiXmlElement) (col : Collision F) : Collision.fromXml ext xml ≠ .ok col := by
  unfold Collision.fromXml
  cases Collision.populate ext xml <;> simp [Outcome.bind]

/-- The value that `Collision::fromXml` populates before it ends: when origin and
geometry build, it carries the parsed origin (the identity transform without an
origin child), the dispatched geometry (none without a geometry child) and the
name attribute. -/
theorem Collision.populate_spec {F : Type} [Zero F] [One F] (ext : Externals F)
    (xml : TiXmlElement) (horigin : OriginBuilds ext xml)
    (hgeometry : GeometryBuilds ext xml) :
    ∃ origin geometry,
      originStep xml ext.Transform_fromXml = .ok origin ∧
      geometryStep ext xml = .ok geometry ∧
      Collision.populate ext xml = .ok ⟨xml.Attribute "name", origin, geometry⟩ := by
  obtain ⟨geometry, hg⟩ := geometryStep_ok hgeometry
  unfold Collision.populate originStep
  cases ho : xml.FirstChildElement "origin" with
  | none => exact ⟨_, geometry, rfl, hg, by simp [hg]⟩
  | some o =>
    obtain ⟨t, ht⟩ := horigin o ho
    exact ⟨t, geometry, by simp [ht], hg, by simp [ht, hg]⟩

/-- C5, on the code: on the link named "base" with one empty visual and one empty
collision, `Link::fromXml` does not return a link: its collision is built by
`Collision::fromXml`, which ends without a return, and so does `Link::fromXml`
itself. -/
theorem Link.link_missing_return :
    Sample.baseLink.Attribute "name" = some "base" ∧
    Link.fromXml Sample.ext Sample.baseLink = .undefined .missingReturn ∧
    Link.fromXml Sample.ext ⟨.mk "link" [("name", "base")] [.mk "visual" [] []], .null⟩
      = .undefined .missingReturn ∧
    Link.populate Sample.ext ⟨.mk "link" [("name", "base")] [.mk "visual" [] []], .null⟩
      = .ok ⟨"base", none, [⟨none, Transform.default Int, none, none, none⟩], []⟩ := by
  decide

/-- No input makes `Link::fromXml` return a value. -/
theorem Link.link_never_returns {F : Type} [Zero F] [One F] (ext : Externals F)
    (xml : TiXmlElement) (link : Link F) : Link.fromXml ext xml ≠ .ok link := by
  unfold Link.fromXml
  cases Link.populate ext xml <;> simp [Outcome.bind]

/-! ## Link without a name -/

/-- C11: a link node without a "name" attribute makes `Link::fromXml` throw the
missing-name parse error, whatever its children are and whatever the builders
of the children would do: the name is tested before any child is looked at. -/
theorem Link.link_without_name {F : Type} [Zero F] [One F] (ext : Externals F)
    (xml : TiXmlElement) (hname : xml.Attribute "name" = none) :
    Link.fromXml ext xml =
      Outcome.parseError "Error! Link without a name attribute detected!" := by
  unfold Link.fromXml Link.populate
  rw [hname]
  rfl

theorem Link.link_without_name_witness :
    Sample.namelessLink.Attribute "name" = none ∧
    Visual.fromXml Sample.ext
        ⟨.mk "visual" [] [Sample.badOrigin], .element Sample.namelessLink.node
          Sample.namelessLink.parent⟩
      = .undefined .nullDereference ∧
    Link.fromXml Sample.ext Sample.namelessLink =
      Outcome.parseError "Error! Link without a name attribute detected!" :=
  ⟨by decide, by decide,
   Link.link_without_name Sample.ext Sample.namelessLink (by decide)⟩

/-! ## Material: malformed colour -/

/-- C14: a material node with name attribute `n` and a colour child (the first
one, which is the one the code reads) whose rgba attribute `Color::fromColorStr`
rejects with message `m`: `Material::fromXml` throws, in both modes and whatever
the texture child is, the parse error with exactly the message
"Material [n] has malformed color rgba values: m!". -/
theorem Material.fromXml_malformed_color {F : Type} (ext : Externals F)
    (xml c : TiXmlElement) (n rgba m : String) (only_name_is_ok : Bool)
    (hname : xml.Attribute "name" = some n)
    (hc : xml.FirstChildElement "color" = some c)
    (hrgba : c.Attribute "rgba" = some rgba)
    (hreject : ext.Color_fromColorStr rgba = Outcome.parseError m) :
    Material.fromXml ext xml only_name_is_ok =
      Outcome.parseError ("Material [" ++ n ++ "] has malformed color rgba values: "
        ++ m ++ "!") := by
  unfold Material.fromXml
  rw [hname, hc]
  cases ht : xml.FirstChildElement "texture" with
  | none =>
    simp [hrgba, hreject, Material.default, Outcome.parseError,
      Outcome.catchURDFParseError, Outcome.bind]
  | some t =>
    cases hf : t.Attribute "filename" with
    | none =>
      simp [hf, hrgba, hreject, Material.default, Outcome.parseError,
        Outcome.catchURDFParseError, Outcome.bind]
    | some f =>
      simp [hf, hrgba, hreject, Material.default, Outcome.parseError,
        Outcome.catchURDFParseError, Outcome.bind]

theorem Material.fromXml_malformed_color_witness :
    Material.fromXml Sample.ext Sample.redMaterialBadColor false =
      Outcome.parseError ("Material [" ++ "red" ++ "] has malformed color rgba values: "
        ++ "color [1 0 zero] needs 4 numbers" ++ "!") :=
  Material.fromXml_malformed_color Sample.ext Sample.redMaterialBadColor
    ⟨.mk "color" [("rgba", "1 0 zero")] [], .element Sample.redMaterialBadColor.node .null⟩
    "red" "1 0 zero" "color [1 0 zero] needs 4 numbers" false
    (by decide) rfl (by decide) (by decide)

/-! ## Re-wrapping of nested failures -/

/-- A parse error of the origin of a visual is thrown again with the name that
the lookup returns in front. -/
theorem Visual.visual_origin_rewrapped {F : Type} [Zero F] [One F] (ext : Externals F)
    (xml o : TiXmlElement) (link m : String)
    (hlink : LookupReturns xml link)
    (ho : xml.FirstChildElement "origin" = some o)
    (hfail : ext.Transform_fromXml o = Outcome.parseError m) :
    Visual.fromXml ext xml = Outcome.parseError
      ("Error while parsing link '" ++ link ++ "': visual origin is not valid: "
        ++ m ++ "!") := by
  unfold Visual.fromXml originStep
  simp only [ho, hfail, Outcome.parseError, Outcome.catchURDFParseError,
    throwInLink_of_lookup hlink, Outcome.bind_throws]

/-- A parse error of the origin of a collision is thrown again with the name that
the lookup returns in front. -/
theorem Collision.collision_origin_rewrapped {F : Type} [Zero F] [One F] (ext : Externals F)
    (xml o : TiXmlElement) (link m : String)
    (hlink : LookupReturns xml link)
    (ho : xml.FirstChildElement "origin" = some o)
    (hfail : ext.Transform_fromXml o = Outcome.parseError m) :
    Collision.fromXml ext xml = Outcome.parseError
      ("Error while parsing link '" ++ link ++ "': collision origin is not a valid: "
        ++ m ++ "!") := by
  unfold Collision.fromXml Collision.populate originStep
  simp only [ho, hfail, Outcome.parseError, Outcome.catchURDFParseError,
    throwInLink_of_lookup hlink, Outcome.bind_throws]

/-- C15, on the code: for the visual and the collision of the link "base" (robot
"arm", in a document) whose origin makes `Transform::fromXml` throw, the handler
asks `getParentLinkName` for the link name, and that lookup reads through the
null `ToElement()` of the document: `Visual::fromXml` and `Collision::fromXml`
throw nothing. When the robot has no parent the failure is thrown again with the
inner message and with "arm" where the name of the link should stand. -/
theorem origin_failure_lookup :
    Sample.ext.Transform_fromXml
        ⟨Sample.badOrigin, .element Sample.visualBadOrigin.node Sample.inBase⟩
      = Outcome.parseError "vector [1 2] needs 3 numbers" ∧
    Visual.fromXml Sample.ext Sample.visualBadOrigin = .undefined .nullDereference ∧
    Collision.fromXml Sample.ext Sample.collisionBadOrigin = .undefined .nullDereference ∧
    Visual.fromXml Sample.ext (Sample.inFreeRobotTree Sample.visualBadOrigin) =
      Outcome.parseError ("Error while parsing link 'arm': visual origin is not valid: "
        ++ "vector [1 2] needs 3 numbers!") ∧
    Collision.fromXml Sample.ext (Sample.inFreeRobotTree Sample.collisionBadOrigin) =
      Outcome.parseError ("Error while parsing link 'arm': collision origin is not a valid: "
        ++ "vector [1 2] needs 3 numbers!") := by
  decide

/-- A mass value that `std::stod` rejects makes `Inertial::fromXml` throw the
message that carries the name the lookup returns, the value and the inner
`what()`. -/
theorem Inertial.mass_rewrapped {F : Type} [Zero F] [One F] (ext : Externals F)
    (xml mass_xml : TiXmlElement) (link v what : String)
    (hlink : LookupReturns xml link) (horigin : OriginBuilds ext xml)
    (hmass : xml.FirstChildElement "mass" = some mass_xml)
    (hvalue : mass_xml.Attribute "value" = some v)
    (hbad : ext.stod v = .error what) :
    Inertial.fromXml ext xml = Outcome.parseError
      ("Error while parsing link '" ++ link ++ "': inertial mass [" ++ v
        ++ "] is not a valid double: " ++ what ++ "!") := by
  obtain ⟨origin, ho⟩ := originStep_ok horigin
  unfold Inertial.fromXml Inertial.massStep
  simp only [ho, hmass, Outcome.bind_ok, hvalue, lexical_cast, hbad,
    Outcome.catchBadLexicalCast, throwInLink_of_lookup hlink]
  rfl

/-- An inertia entry that `std::stod` rejects makes the inertia part throw the
message that starts with the name the lookup returns, lists the six values and
ends with the `what()` of the first rejected entry. -/
theorem Inertial.inertiaStep_bad {F : Type} {ext : Externals F}
    {xml inertia_xml : TiXmlElement} {link what : String} (origin : Transform F) (m : F)
    {sxx sxy sxz syy syz szz : String}
    (hlink : LookupReturns xml link)
    (hinertia : xml.FirstChildElement "inertia" = some inertia_xml)
    (hxx : inertia_xml.Attribute "ixx" = some sxx)
    (hxy : inertia_xml.Attribute "ixy" = some sxy)
    (hxz : inertia_xml.Attribute "ixz" = some sxz)
    (hyy : inertia_xml.Attribute "iyy" = some syy)
    (hyz : inertia_xml.Attribute "iyz" = some syz)
    (hzz : inertia_xml.Attribute "izz" = some szz)
    (hbad : firstRejected ext [sxx, sxy, sxz, syy, syz, szz] = some what) :
    Inertial.inertiaStep ext xml origin m = Outcome.parseError
      ("Error while parsing link '" ++ link
        ++ "Inertial: one of the inertia elements is not a valid double:"
        ++ " ixx [" ++ sxx ++ "]" ++ " ixy [" ++ sxy ++ "]" ++ " ixz [" ++ sxz ++ "]"
        ++ " iyy [" ++ syy ++ "]" ++ " iyz [" ++ syz ++ "]" ++ " izz [" ++ szz ++ "]\n\n"
        ++ what) := by
  unfold Inertial.inertiaStep
  simp only [hinertia, hxx, hxy, hxz, hyy, hyz, hzz, lexical_cast,
    throwInLink_of_lookup hlink]
  cases h1 : ext.stod sxx with
  | error w => simp only [firstRejected, h1, Option.some.injEq] at hbad; subst hbad; rfl
  | ok v1 =>
  cases h2 : ext.stod sxy with
  | error w => simp only [firstRejected, h1, h2, Option.some.injEq] at hbad; subst hbad; rfl
  | ok v2 =>
  cases h3 : ext.stod sxz with
  | error w =>
    simp only [firstRejected, h1, h2, h3, Option.some.injEq] at hbad; subst hbad; rfl
  | ok v3 =>
  cases h4 : ext.stod syy with
  | error w =>
    simp only [firstRejected, h1, h2, h3, h4, Option.some.injEq] at hbad; subst hbad; rfl
  | ok v4 =>
  cases h5 : ext.stod syz with
  | error w =>
    simp only [firstRejected, h1, h2, h3, h4, h5, Option.some.injEq] at hbad; subst hbad; rfl
  | ok v5 =>
  cases h6 : ext.stod szz with
  | error w =>
    simp only [firstRejected, h1, h2, h3, h4, h5, h6, Option.some.injEq] at hbad
    subst hbad; rfl
  | ok v6 =>
    simp [firstRejected, h1, h2, h3, h4, h5, h6] at hbad

/-- A failure of `Geometry::fromXml` leaves `Visual::fromXml` as it is. -/
theorem Visual.visual_geometry_unchanged {F : Type} [Zero F] [One F] (ext : Externals F)
    (xml g : TiXmlElement) (e : Exception) (horigin : OriginBuilds ext xml)
    (hg : xml.FirstChildElement "geometry" = some g)
    (hfail : ext.Geometry_fromXml g = .throws e) :
    Visual.fromXml ext xml = .throws e := by
  obtain ⟨origin, ho⟩ := originStep_catch_ok
    (fun what => throwInLink xml (fun link =>
        "Error while parsing link '" ++ link
          ++ "': visual origin is not valid: " ++ what ++ "!")) horigin
  unfold Visual.fromXml geometryStep
  rw [ho]
  simp only [hg, hfail, Outcome.bind_ok, Outcome.bind_throws]

/-- A failure of `Geometry::fromXml` leaves `Collision::fromXml` as it is. -/
theorem Collision.collision_geometry_unchanged {F : Type} [Zero F] [One F]
    (ext : Externals F) (xml g : TiXmlElement) (e : Exception)
    (horigin : OriginBuilds ext xml)
    (hg : xml.FirstChildElement "geometry" = some g)
    (hfail : ext.Geometry_fromXml g = .throws e) :
    Collision.fromXml ext xml = .throws e := by
  obtain ⟨origin, ho⟩ := originStep_catch_ok
    (fun what => throwInLink xml (fun link =>
        "Error while parsing link '" ++ link
          ++ "': collision origin is not a valid: " ++ what ++ "!")) horigin
  unfold Collision.fromXml Collision.populate geometryStep
  rw [ho]
  simp only [hg, hfail, Outcome.bind_ok, Outcome.bind_throws]

/-- Every character of a contained piece occurs in the message. -/
theorem Contains.mem_data {msg part : String} (h : Contains msg part) (c : Char)
    (hc : c ∈ part.data) : c ∈ msg.data := by
  obtain ⟨before, after, rfl⟩ := h
  simp only [String.data_append, List.mem_append]
  exact Or.inl (Or.inr hc)

/-- C12, as the claim has it, fails: under the link "base", a malformed origin of
an inertial node and a malformed geometry of a visual and of a collision node
surface with exactly the message of the lower-level parser, and that message
does not contain the link name. -/
theorem nested_failure_surfaces_raw :
    (Sample.ext.Transform_fromXml ⟨Sample.badOrigin,
        .element Sample.inertialBadOrigin.node Sample.inBase⟩
      = Outcome.parseError "vector [1 2] needs 3 numbers" ∧
     Inertial.fromXml Sample.ext Sample.inertialBadOrigin
      = Outcome.parseError "vector [1 2] needs 3 numbers" ∧
     ¬ Contains "vector [1 2] needs 3 numbers" "base") ∧
    (Sample.ext.Geometry_fromXml ⟨Sample.badGeometry,
        .element Sample.visualBadGeometry.node Sample.inBase⟩
      = Outcome.parseError "sphere needs a radius" ∧
     Visual.fromXml Sample.ext Sample.visualBadGeometry
      = Outcome.parseError "sphere needs a radius" ∧
     Collision.fromXml Sample.ext Sample.collisionBadGeometry
      = Outcome.parseError "sphere needs a radius" ∧
     ¬ Contains "sphere needs a radius" "base") := by
  refine ⟨⟨by decide, by decide, ?_⟩, ⟨by decide, by decide, by decide, ?_⟩⟩
  · intro h
    exact absurd (h.mem_data 'a' (by decide)) (by decide)
  · intro h
    exact absurd (h.mem_data 'b' (by decide)) (by decide)

/-- C12, as the code has it. A failure of `Geometry::fromXml` under a visual or a
collision whose origin builds has no handler and surfaces unchanged. The nested
failures for which `link.cpp` has a handler are thrown again with the name that
the handler's lookup `getParentLinkName` returns, whenever it returns one: a
parse error of the origin of a visual or a collision, and, under an inertial
node whose origin builds, a mass value that `std::stod` rejects or, with a valid
mass and all six inertia attributes, an inertia entry that `std::stod` rejects;
the message then ends with the `what()` of the first rejected entry. -/
theorem nested_failures_rewrapped {F : Type} [Zero F] [One F] (ext : Externals F)
    (xml : TiXmlElement) :
    (∀ g e, OriginBuilds ext xml → xml.FirstChildElement "geometry" = some g →
      ext.Geometry_fromXml g = .throws e →
      Visual.fromXml ext xml = .throws e ∧ Collision.fromXml ext xml = .throws e) ∧
    (∀ link o m, LookupReturns xml link → xml.FirstChildElement "origin" = some o →
      ext.Transform_fromXml o = Outcome.parseError m →
      Visual.fromXml ext xml = Outcome.parseError
        ("Error while parsing link '" ++ link ++ "': visual origin is not valid: "
          ++ m ++ "!") ∧
      Collision.fromXml ext xml = Outcome.parseError
        ("Error while parsing link '" ++ link ++ "': collision origin is not a valid: "
          ++ m ++ "!")) ∧
    (∀ link mass_xml v what, LookupReturns xml link → OriginBuilds ext xml →
      xml.FirstChildElement "mass" = some mass_xml →
      mass_xml.Attribute "value" = some v → ext.stod v = .error what →
      Inertial.fromXml ext xml = Outcome.parseError
        ("Error while parsing link '" ++ link ++ "': inertial mass [" ++ v
          ++ "] is not a valid double: " ++ what ++ "!")) ∧
    (∀ link mass_xml v (m : F) inertia_xml sxx sxy sxz syy syz szz what,
      LookupReturns xml link → OriginBuilds ext xml →
      xml.FirstChildElement "mass" = some mass_xml →
      mass_xml.Attribute "value" = some v → ext.stod v = .ok m →
      xml.FirstChildElement "inertia" = some inertia_xml →
      inertia_xml.Attribute "ixx" = some sxx → inertia_xml.Attribute "ixy" = some sxy →
      inertia_xml.Attribute "ixz" = some sxz → inertia_xml.Attribute "iyy" = some syy →
      inertia_xml.Attribute "iyz" = some syz → inertia_xml.Attribute "izz" = some szz →
      firstRejected ext [sxx, sxy, sxz, syy, syz, szz] = some what →
      Inertial.fromXml ext xml = Outcome.parseError
        ("Error while parsing link '" ++ link
          ++ "Inertial: one of the inertia elements is not a valid double:"
          ++ " ixx [" ++ sxx ++ "]" ++ " ixy [" ++ sxy ++ "]" ++ " ixz [" ++ sxz ++ "]"
          ++ " iyy [" ++ syy ++ "]" ++ " iyz [" ++ syz ++ "]" ++ " izz [" ++ szz ++ "]\n\n"
          ++ what)) := by
  refine ⟨?_, ?_, ?_, ?_⟩
  · intro g e horigin hg hfail
    exact ⟨Visual.visual_geometry_unchanged ext xml g e horigin hg hfail,
      Collision.collision_geometry_unchanged ext xml g e horigin hg hfail⟩
  · intro link o m hlink ho hfail
    exact ⟨Visual.visual_origin_rewrapped ext xml o link m hlink ho hfail,
      Collision.collision_origin_rewrapped ext xml o link m hlink ho hfail⟩
  · intro link mass_xml v what hlink horigin hmass hvalue hbad
    exact Inertial.mass_rewrapped ext xml mass_xml link v what hlink horigin hmass hvalue hbad
  · intro link mass_xml v m inertia_xml sxx sxy sxz syy syz szz what hlink horigin hmass
      hvalue hvalid hinertia hxx hxy hxz hyy hyz hzz hbad
    obtain ⟨origin, ho⟩ := originStep_ok horigin
    unfold Inertial.fromXml
    rw [ho, Outcome.bind_ok, Inertial.massStep_ok hmass hvalue hvalid, Outcome.bind_ok]
    exact Inertial.inertiaStep_bad origin m hlink hinertia hxx hxy hxz hyy hyz hzz hbad

theorem nested_failures_rewrapped_witness :
    (Visual.fromXml Sample.ext Sample.visualBadGeometry
        = .throws (.URDFParseError "sphere needs a radius") ∧
     Collision.fromXml Sample.ext Sample.collisionBadGeometry
        = .throws (.URDFParseError "sphere needs a radius")) ∧
    (Visual.fromXml Sample.ext (Sample.inFreeTree Sample.visualBadOrigin) =
      Outcome.parseError
        ("Error while parsing link '" ++ "base" ++ "': visual origin is not valid: "
          ++ "vector [1 2] needs 3 numbers" ++ "!") ∧
     Collision.fromXml Sample.ext (Sample.inFreeTree Sample.collisionBadOrigin) =
      Outcome.parseError
        ("Error while parsing link '" ++ "base" ++ "': collision origin is not a valid: "
          ++ "vector [1 2] needs 3 numbers" ++ "!")) ∧
    Inertial.fromXml Sample.ext (Sample.inFreeTree Sample.inertialMassBad) =
      Outcome.parseError
        ("Error while parsing link '" ++ "base" ++ "': inertial mass [" ++ "heavy"
          ++ "] is not a valid double: " ++ "stod" ++ "!") ∧
    Inertial.fromXml Sample.ext (Sample.inFreeTree Sample.inertialBadInertia) =
      Outcome.parseError
        ("Error while parsing link '" ++ "base"
          ++ "Inertial: one of the inertia elements is not a valid double:"
          ++ " ixx [" ++ "1" ++ "]" ++ " ixy [" ++ "0" ++ "]" ++ " ixz [" ++ "0" ++ "]"
          ++ " iyy [" ++ "one" ++ "]" ++ " iyz [" ++ "0" ++ "]" ++ " izz [" ++ "1" ++ "]\n\n"
          ++ "stod") :=
  ⟨⟨((nested_failures_rewrapped Sample.ext Sample.visualBadGeometry).1
      ⟨Sample.badGeometry, .element Sample.visualBadGeometry.node Sample.inBase⟩
      (.URDFParseError "sphere needs a radius") (by intro o ho; cases ho) rfl (by decide)).1,
    ((nested_failures_rewrapped Sample.ext Sample.collisionBadGeometry).1
      ⟨Sample.badGeometry, .element Sample.collisionBadGeometry.node Sample.inBase⟩
      (.URDFParseError "sphere needs a radius") (by intro o ho; cases ho) rfl
      (by decide)).2⟩,
   ⟨((nested_failures_rewrapped Sample.ext (Sample.inFreeTree Sample.visualBadOrigin)).2.1
      "base" ⟨Sample.badOrigin, .element Sample.visualBadOrigin.node Sample.inFreeBase⟩
      "vector [1 2] needs 3 numbers" (Sample.lookup_inFreeBase _) rfl (by decide)).1,
    ((nested_failures_rewrapped Sample.ext (Sample.inFreeTree Sample.collisionBadOrigin)).2.1
      "base" ⟨Sample.badOrigin, .element Sample.collisionBadOrigin.node Sample.inFreeBase⟩
      "vector [1 2] needs 3 numbers" (Sample.lookup_inFreeBase _) rfl (by decide)).2⟩,
   (nested_failures_rewrapped Sample.ext (Sample.inFreeTree Sample.inertialMassBad)).2.2.1
      "base" ⟨.mk "mass" [("value", "heavy")] [],
        .element Sample.inertialMassBad.node Sample.inFreeBase⟩
      "heavy" "stod" (Sample.lookup_inFreeBase _) (by intro o ho; cases ho) rfl (by decide) rfl,
   (nested_failures_rewrapped Sample.ext (Sample.inFreeTree Sample.inertialBadInertia)).2.2.2
      "base" ⟨Sample.mass3, .element Sample.inertialBadInertia.node Sample.inFreeBase⟩ "3" 3
      ⟨.mk "inertia" [("ixx", "1"), ("ixy", "0"), ("ixz", "0"), ("iyy", "one"),
          ("iyz", "0"), ("izz", "1")] [],
        .element Sample.inertialBadInertia.node Sample.inFreeBase⟩
      "1" "0" "0" "one" "0" "1" "stod" (Sample.lookup_inFreeBase _)
      (by intro o ho; cases ho) rfl (by decide) rfl rfl
      (by decide) (by decide) (by decide) (by decide) (by decide) (by decide) rfl⟩

/-! ## Quaternions -/

/-- In a commutative ring, the Hamilton product of a quaternion of unit norm
with its conjugate is the identity rotation. -/
theorem Rotation.mul_conjugate {F : Type} [CommRing F] (q : Rotation F)
    (hunit : q.x ^ 2 + q.y ^ 2 + q.z ^ 2 + q.w ^ 2 = 1) :
    q.mul q.getInverse = Rotation.default F := by
  have hw : q.w * q.w - q.x * -q.x - q.y * -q.y - q.z * -q.z = 1 := by
    rw [← hunit]; ring
  simp only [Rotation.mul, Rotation.getInverse, Rotation.default, Rotation.mk.injEq]
  refine ⟨by ring, by ring, by ring, hw⟩

/-- C13: over the real numbers, for every unit quaternion q (x²+y²+z²+w² = 1) the
Hamilton product of q with `q.getInverse()`, its conjugate, is the identity
rotation (0, 0, 0, 1). -/
theorem Rotation.mul_getInverse_unit (q : Rotation ℝ)
    (hunit : q.x ^ 2 + q.y ^ 2 + q.z ^ 2 + q.w ^ 2 = 1) :
    q.mul q.getInverse = ⟨0, 0, 0, 1⟩ :=
  Rotation.mul_conjugate q hunit

theorem Rotation.mul_getInverse_unit_witness :
    Rotation.mul (⟨3 / 5, 0, 4 / 5, 0⟩ : Rotation ℝ) (Rotation.getInverse ⟨3 / 5, 0, 4 / 5, 0⟩)
      = ⟨0, 0, 0, 1⟩ :=
  Rotation.mul_getInverse_unit ⟨3 / 5, 0, 4 / 5, 0⟩ (by norm_num)

/-! ## Defaults and `clear()` -/

/-- C16: the default-constructed values are Vector3 (0,0,0), Rotation (0,0,0,1),
Color (0,0,0,1), Transform with zero position and identity rotation, Mesh with
scale (1,1,1); and `clear()` turns every Vector3, Rotation, Color and Transform
into the default-constructed value of its type and every Mesh into one with
empty file name and scale (1,1,1), which for a mesh that carries its own type
tag is the default-constructed Mesh. -/
theorem clear_eq_default {F : Type} [Zero F] [One F] :
    (Vector3.default F = ⟨0, 0, 0⟩ ∧ Rotation.default F = ⟨0, 0, 0, 1⟩ ∧
      Color.default F = ⟨0, 0, 0, 1⟩ ∧
      Transform.default F = ⟨⟨0, 0, 0⟩, ⟨0, 0, 0, 1⟩⟩ ∧
      (Mesh.default F).scale = ⟨1, 1, 1⟩ ∧ (Mesh.default F).filename = "") ∧
    (∀ v : Vector3 F, v.clear = Vector3.default F) ∧
    (∀ q : Rotation F, q.clear = Rotation.default F) ∧
    (∀ c : Color F, c.clear = Color.default F) ∧
    (∀ t : Transform F, t.clear = Transform.default F) ∧
    (∀ m : Mesh F, m.clear.filename = "" ∧ m.clear.scale = ⟨1, 1, 1⟩ ∧
      m.clear.type = m.type ∧ (m.type = .MESH → m.clear = Mesh.default F)) := by
  refine ⟨⟨rfl, rfl, rfl, rfl, rfl, rfl⟩, fun _ => rfl, fun _ => rfl, fun _ => rfl,
    fun _ => rfl, fun m => ⟨rfl, rfl, rfl, ?_⟩⟩
  intro h
  cases m
  simp only at h
  subst h
  rfl

/-! ## `nonboost::split` -/

namespace nonboost

/-- A string begins with `d` exactly when it is `d` followed by a rest. -/
theorem startsWith_iff (d : List Char) : ∀ s : List Char,
    startsWith d s = true ↔ ∃ r, s = d ++ r := by
  induction d with
  | nil => intro s; simp [startsWith]
  | cons a d ih =>
    intro s
    cases s with
    | nil => simp [startsWith]
    | cons b s =>
      simp only [startsWith, Bool.and_eq_true, beq_iff_eq, ih, List.cons_append,
        List.cons.injEq]
      constructor
      · rintro ⟨rfl, r, rfl⟩; exact ⟨r, rfl, rfl⟩
      · rintro ⟨r, rfl, rfl⟩; exact ⟨rfl, r, rfl⟩

/-- The position that `find` returns splits the string into the part before the
occurrence, the delimiter and the part behind it. -/
theorem find_some_split (d : List Char) : ∀ (s : List Char) (pos : Nat),
    find s d = some pos → s = s.take pos ++ d ++ s.drop (pos + d.length) := by
  intro s
  induction s with
  | nil =>
    intro pos h
    cases d with
    | nil => simp
    | cons a d => simp [find] at h
  | cons c s ih =>
    intro pos h
    rw [find] at h
    split at h
    · rename_i hs
      obtain ⟨r, hr⟩ := (startsWith_iff d (c :: s)).mp hs
      cases h
      rw [hr]
      simp
    · cases hf : find s d with
      | none => rw [hf] at h; cases h
      | some q =>
        rw [hf] at h
        simp only [Option.map_some', Option.some.injEq] at h
        subst h
        have := ih q hf
        have e : q + 1 + d.length = (q + d.length) + 1 := by omega
        rw [e, List.take_succ_cons, List.drop_succ_cons]
        simp only [List.cons_append, List.cons.injEq, true_and]
        exact this

/-- An occurrence of `d` in `s` is found, not later than where it lies. -/
theorem find_of_occurs (d : List Char) : ∀ (a b : List Char),
    ∃ pos, find (a ++ d ++ b) d = some pos ∧ pos ≤ a.length := by
  intro a
  induction a with
  | nil =>
    intro b
    refine ⟨0, ?_, Nat.le_refl _⟩
    cases hdb : ([] ++ d ++ b) with
    | nil =>
      have hd : d = [] := by
        cases d with
        | nil => rfl
        | cons x d => simp at hdb
      simp [find, hd]
    | cons c s =>
      have hs : startsWith d (c :: s) = true :=
        (startsWith_iff d (c :: s)).mpr ⟨b, by rw [← hdb]; simp⟩
      rw [find, if_pos hs]
  | cons x a ih =>
    intro b
    obtain ⟨q, hq, hle⟩ := ih b
    simp only [List.cons_append, find]
    split
    · exact ⟨0, rfl, Nat.zero_le _⟩
    · refine ⟨q + 1, ?_, by simp only [List.length_cons]; omega⟩
      simp only [List.append_assoc] at hq
      simp [hq]

/-- When `find` returns `npos`, the delimiter does not occur. -/
theorem not_occurs_of_find_none {d s : List Char} (h : find s d = none) : ¬ Occurs d s := by
  rintro ⟨a, b, rfl⟩
  obtain ⟨pos, hpos, _⟩ := find_of_occurs d a b
  rw [h] at hpos
  cases hpos

/-- A non-empty delimiter does not occur before the position that `find` returns. -/
theorem not_occurs_before_find {d s : List Char} {pos : Nat} (hd : d ≠ [])
    (h : find s d = some pos) : ¬ Occurs d (s.take pos) := by
  rintro ⟨a, b, hab⟩
  have hs : s = a ++ d ++ (b ++ s.drop pos) := by
    conv_lhs => rw [← List.take_append_drop pos s, hab]
    simp
  obtain ⟨q, hq, hle⟩ := find_of_occurs d a (b ++ s.drop pos)
  rw [← hs, h] at hq
  cases hq
  have hlen := congrArg List.length hab
  simp only [List.length_take, List.length_append] at hlen
  have hdl : 0 < d.length := List.length_pos.mpr hd
  omega

/-- With a non-empty delimiter every pass of the loop shortens the string. -/
theorem drop_after_find_shorter {d s : List Char} {pos : Nat} (hd : d ≠ [])
    (h : find s d = some pos) : (s.drop (pos + d.length)).length < s.length := by
  have hlen := congrArg List.length (find_some_split d s pos h)
  simp only [List.length_take, List.length_append, List.length_drop] at hlen
  have hdl : 0 < d.length := List.length_pos.mpr hd
  simp only [List.length_drop]
  omega

/-- Skipped characters do not count. -/
theorem countFrom_skip (d : List Char) : ∀ (s : List Char) (k : Nat),
    countFrom d k s = countFrom d 0 (s.drop k) := by
  intro s
  induction s with
  | nil => intro k; cases k <;> simp [countFrom]
  | cons c s ih =>
    intro k
    cases k with
    | zero => simp
    | succ k => simp only [countFrom, List.drop_succ_cons]; exact ih k

/-- Without an occurrence the count is zero. -/
theorem countFrom_of_find_none (d : List Char) : ∀ s : List Char,
    find s d = none → countFrom d 0 s = 0 := by
  intro s
  induction s with
  | nil => intro _; rfl
  | cons c s ih =>
    intro h
    rw [find] at h
    split at h
    · cases h
    · rename_i hs
      have hn : find s d = none := by
        cases hf : find s d with
        | none => rfl
        | some q => rw [hf] at h; cases h
      simp only [countFrom, hs, Bool.false_eq_true, if_false]
      exact ih hn

/-- The first occurrence counts once, and counting goes on behind it. -/
theorem countFrom_of_find_some (d : List Char) (hd : d ≠ []) : ∀ (s : List Char) (pos : Nat),
    find s d = some pos → countFrom d 0 s = 1 + countFrom d 0 (s.drop (pos + d.length)) := by
  have hdl : 0 < d.length := List.length_pos.mpr hd
  intro s
  induction s with
  | nil =>
    intro pos h
    cases d with
    | nil => exact absurd rfl hd
    | cons a d => simp [find] at h
  | cons c s ih =>
    intro pos h
    rw [find] at h
    split at h
    · rename_i hs
      cases h
      simp only [countFrom, hs, if_true, Nat.zero_add]
      rw [countFrom_skip d s (d.length - 1)]
      have e : d.length = (d.length - 1) + 1 := by omega
      conv_rhs => rw [e, List.drop_succ_cons]
    · rename_i hs
      cases hf : find s d with
      | none => rw [hf] at h; cases h
      | some q =>
        rw [hf] at h
        simp only [Option.map_some', Option.some.injEq] at h
        subst h
        have e : q + 1 + d.length = (q + d.length) + 1 := by omega
        simp only [countFrom, hs, Bool.false_eq_true, if_false]
        rw [e, List.drop_succ_cons]
        exact ih q hf

/-- Joining a token with a non-empty list of further tokens. -/
theorem joinWith_cons (d t : List Char) {rest : List (List Char)} (h : rest ≠ []) :
    joinWith d (t :: rest) = t ++ d ++ joinWith d rest := by
  cases rest with
  | nil => exact absurd rfl h
  | cons u rest => rfl

/-- With a non-empty delimiter and more fuel than characters, `split` appends to
the tokens it is given a non-empty list of tokens that join to the string, do
not contain the delimiter, and are one more than the occurrences. -/
theorem split_spec (d : List Char) (hd : d ≠ []) : ∀ (fuel : Nat) (tokens : List (List Char))
    (s : List Char), s.length < fuel →
    ∃ toks, split fuel tokens s d = some (tokens ++ toks) ∧ toks ≠ [] ∧
      joinWith d toks = s ∧ (∀ t ∈ toks, ¬ Occurs d t) ∧
      toks.length = countOccurrences d s + 1 := by
  intro fuel
  induction fuel with
  | zero => intro tokens s h; omega
  | succ fuel ih =>
    intro tokens s hfuel
    rw [split]
    cases hf : find s d with
    | none =>
      refine ⟨[s], rfl, by simp, rfl, ?_, ?_⟩
      · intro t ht
        simp only [List.mem_singleton] at ht
        subst ht
        exact not_occurs_of_find_none hf
      · simp [countOccurrences, countFrom_of_find_none d s hf]
    | some pos =>
      have hshort := drop_after_find_shorter hd hf
      obtain ⟨toks, hsplit, hne, hjoin, hocc, hcount⟩ :=
        ih (tokens ++ [s.take pos]) (s.drop (pos + d.length)) (by omega)
      refine ⟨s.take pos :: toks, ?_, by simp, ?_, ?_, ?_⟩
      · simp only [hsplit, List.append_assoc, List.singleton_append]
      · rw [joinWith_cons d _ hne, hjoin]
        exact (find_some_split d s pos hf).symm
      · intro t ht
        rcases List.mem_cons.mp ht with rfl | ht
        · exact not_occurs_before_find hd hf
        · exact hocc t ht
      · simp only [List.length_cons, hcount, countOccurrences]
        rw [countFrom_of_find_some d hd s pos hf]
        omega

end nonboost

namespace nonboost

/-- More fuel does not change a result that `split` has reached. -/
theorem split_more_fuel (d : List Char) : ∀ (fuel : Nat) (tokens : List (List Char))
    (s : List Char) (r : List (List Char)), split fuel tokens s d = some r →
    ∀ k, split (fuel + k) tokens s d = some r := by
  intro fuel
  induction fuel with
  | zero => intro tokens s r h; simp [split] at h
  | succ fuel ih =>
    intro tokens s r h k
    have e : fuel + 1 + k = (fuel + k) + 1 := by omega
    rw [e, split]
    rw [split] at h
    cases hf : find s d with
    | none => rw [hf] at h; exact h
    | some pos =>
      rw [hf] at h
      exact ih _ _ r h k

/-- The empty delimiter is found at position 0 of every string. -/
theorem find_empty (s : List Char) : find s [] = some 0 := by
  cases s with
  | nil => rfl
  | cons c s => simp [find, startsWith]

/-- With the empty delimiter the loop of `split` is never left. -/
theorem split_empty_delimiter_none : ∀ (fuel : Nat) (tokens : List (List Char))
    (s : List Char), split fuel tokens s [] = none := by
  intro fuel
  induction fuel with
  | zero => intro tokens s; rfl
  | succ fuel ih =>
    intro tokens s
    rw [split, find_empty]
    exact ih _ _

/-- With a non-empty delimiter `split` returns: every pass of the loop shortens
the remaining string, and one test more than the string has characters is
enough. -/
theorem split_terminates (s d : List Char) (tokens : List (List Char)) (hd : d ≠ []) :
    (∀ rest, splitRemaining s d = some rest → rest.length < s.length) ∧
    ∃ r, ∀ fuel, s.length < fuel → split fuel tokens s d = some r := by
  constructor
  · intro rest h
    unfold splitRemaining at h
    cases hf : find s d with
    | none => rw [hf] at h; cases h
    | some pos =>
      rw [hf] at h
      cases h
      exact drop_after_find_shorter hd hf
  · obtain ⟨toks, h, _⟩ := split_spec d hd (s.length + 1) tokens s (Nat.lt_succ_self _)
    refine ⟨tokens ++ toks, ?_⟩
    intro fuel hfuel
    obtain ⟨k, rfl⟩ : ∃ k, fuel = s.length + 1 + k := ⟨fuel - (s.length + 1), by omega⟩
    exact split_more_fuel d _ tokens s _ h k

/-- C17: for every string `s` and every non-empty delimiter `d`, `split` run on an
empty token list returns (for any number of loop tests above the length of `s`)
a non-empty list of tokens; joining the tokens with `d` gives `s`, no token
contains `d`, and there is one token more than there are non-overlapping
left-to-right occurrences of `d` in `s`. -/
theorem split_tokens (s d : List Char) (hd : d ≠ []) :
    ∃ toks, (∀ fuel, s.length < fuel → split fuel [] s d = some toks) ∧ toks ≠ [] ∧
      joinWith d toks = s ∧ (∀ t ∈ toks, ¬ Occurs d t) ∧
      toks.length = countOccurrences d s + 1 := by
  obtain ⟨toks, h, hne, hjoin, hocc, hcount⟩ :=
    split_spec d hd (s.length + 1) [] s (Nat.lt_succ_self _)
  refine ⟨toks, ?_, hne, hjoin, hocc, hcount⟩
  intro fuel hfuel
  obtain ⟨k, rfl⟩ : ∃ k, fuel = s.length + 1 + k := ⟨fuel - (s.length + 1), by omega⟩
  simpa using split_more_fuel d _ [] s _ h k

theorem split_tokens_witness :
    split 7 [] ['1', ' ', ' ', '2', ' ', '3'] [' '] = some [['1'], [], ['2'], ['3']] ∧
    countOccurrences [' '] ['1', ' ', ' ', '2', ' ', '3'] = 3 ∧
    ∃ toks, (∀ fuel, ['1', ' ', ' ', '2', ' ', '3'].length < fuel →
        split fuel [] ['1', ' ', ' ', '2', ' ', '3'] [' '] = some toks) ∧ toks ≠ [] ∧
      joinWith [' '] toks = ['1', ' ', ' ', '2', ' ', '3'] ∧
      (∀ t ∈ toks, ¬ Occurs [' '] t) ∧
      toks.length = countOccurrences [' '] ['1', ' ', ' ', '2', ' ', '3'] + 1 :=
  ⟨by decide, by decide, split_tokens ['1', ' ', ' ', '2', ' ', '3'] [' '] (by decide)⟩

/-- C18, on the code: with the empty delimiter `find` returns position 0 for every
string, the pass through the loop body erases nothing and leaves the string as
it was, and the loop is not left however many times its condition is tested; so
it is for the string "abc". -/
theorem split_empty_delimiter (fuel : Nat) (tokens : List (List Char)) (s : List Char) :
    find s [] = some 0 ∧ splitRemaining s [] = some s ∧
    split fuel tokens s [] = none ∧
    split fuel [] ['a', 'b', 'c'] [] = none := by
  refine ⟨find_empty s, ?_, split_empty_delimiter_none fuel tokens s,
    split_empty_delimiter_none fuel [] _⟩
  simp [splitRemaining, find_empty]

end nonboost

/-! ## The fallback `M_PI` -/

/-- C19, on the code: the fallback `M_PI` is below π by more than 10⁻⁷ (and by less
than 1.2·10⁻⁷), so it is not within 5·10⁻¹⁰ of π: the written decimals agree
with π up to the sixth only. -/
theorem M_PI_fallback_off :
    (1 : ℝ) / 10 ^ 7 < Real.pi - (M_PI : ℝ) ∧ Real.pi - (M_PI : ℝ) < 12 / 10 ^ 8 ∧
    ¬ |(M_PI : ℝ) - Real.pi| ≤ 5 / 10 ^ 10 := by
  have hlo := Real.pi_gt_d20
  have hhi := Real.pi_lt_d20
  have hM : (M_PI : ℝ) = 3141592538 / 1000000000 := by
    unfold M_PI
    push_cast
    rfl
  rw [hM]
  refine ⟨by norm_num at hlo ⊢; linarith, by norm_num at hhi ⊢; linarith, ?_⟩
  intro h
  rw [abs_le] at h
  norm_num at hlo h
  linarith [h.1]

/-! ## `nonboost::algorithm::trim` -/

namespace nonboost.algorithm

/-- What `dropWhile` leaves begins with a character that fails the test. -/
theorem head_dropWhile_false (p : Char → Bool) : ∀ (l : List Char) (a : Char)
    (rest : List Char), l.dropWhile p = a :: rest → p a = false := by
  intro l
  induction l with
  | nil => intro a rest h; simp at h
  | cons c l ih =>
    intro a rest h
    rw [List.dropWhile_cons] at h
    split at h
    · exact ih a rest h
    · rename_i hc
      simp only [List.cons.injEq] at h
      rw [← h.1]
      simpa using hc

/-- What `dropWhile` leaves, when it leaves something, ends as the list ends. -/
theorem getLast?_dropWhile (p : Char → Bool) : ∀ l : List Char,
    l.dropWhile p ≠ [] → (l.dropWhile p).getLast? = l.getLast? := by
  intro l
  induction l with
  | nil => intro h; simp at h
  | cons c l ih =>
    intro h
    rw [List.dropWhile_cons] at h ⊢
    split
    · rename_i hc
      rw [if_pos hc] at h
      rw [ih h]
      cases l with
      | nil => simp at h
      | cons x l => simp [List.getLast?_cons_cons]
    · rfl

/-- A list that begins with a character failing the test loses nothing to
`dropWhile`. -/
theorem dropWhile_of_head_false (p : Char → Bool) (a : Char) (rest : List Char)
    (h : p a = false) : (a :: rest).dropWhile p = a :: rest := by
  simp [List.dropWhile_cons, h]

/-- The result of `rtrim` is empty or ends with a character that is not white
space. -/
theorem rtrim_last (s : List Char) (b : Char) (h : (rtrim s).getLast? = some b) :
    isspace b = false := by
  unfold rtrim at h
  rw [List.getLast?_reverse] at h
  cases hd : s.reverse.dropWhile isspace with
  | nil => rw [hd] at h; simp at h
  | cons a rest =>
    rw [hd] at h
    simp only [List.head?_cons, Option.some.injEq] at h
    subst h
    exact head_dropWhile_false isspace _ _ _ hd

/-- A string that ends with a character that is not white space is left as it is
by `rtrim`. -/
theorem rtrim_of_last_false (t : List Char) (b : Char) (h : t.getLast? = some b)
    (hb : isspace b = false) : rtrim t = t := by
  unfold rtrim
  have hr : t.reverse.head? = some b := by rw [List.head?_reverse]; exact h
  cases hrev : t.reverse with
  | nil => rw [hrev] at hr; simp at hr
  | cons a rest =>
    rw [hrev] at hr
    simp only [List.head?_cons, Option.some.injEq] at hr
    subst hr
    rw [dropWhile_of_head_false isspace _ _ hb, ← hrev, List.reverse_reverse]

/-- The string is what `rtrim` leaves followed by white space. -/
theorem rtrim_append (s : List Char) :
    ∃ suf, s = rtrim s ++ suf ∧ ∀ c ∈ suf, isspace c = true := by
  refine ⟨(s.reverse.takeWhile isspace).reverse, ?_, ?_⟩
  · unfold rtrim
    rw [← List.reverse_append, List.takeWhile_append_dropWhile, List.reverse_reverse]
  · intro c hc
    exact List.mem_takeWhile_imp (List.mem_reverse.mp hc)

/-- C20: for every string `s`, `trim` leaves a contiguous piece of `s`: what is
removed in front of it and behind it is white space only, and the piece is empty
or begins and ends with a character that is not white space, so the removed
parts are the maximal ones and the interior is unchanged. The result is empty
exactly when `s` is all white space, and `trim` is idempotent. -/
theorem trim_spec (s : List Char) :
    (∃ pre suf, s = pre ++ trim s ++ suf ∧
      (∀ c ∈ pre, isspace c = true) ∧ (∀ c ∈ suf, isspace c = true)) ∧
    (trim s = [] ∨ ∃ a b, (trim s).head? = some a ∧ (trim s).getLast? = some b ∧
      isspace a = false ∧ isspace b = false) ∧
    (trim s = [] ↔ ∀ c ∈ s, isspace c = true) ∧
    trim (trim s) = trim s := by
  obtain ⟨suf, hsuf, hsufsp⟩ := rtrim_append s
  have hpre : rtrim s = (rtrim s).takeWhile isspace ++ trim s :=
    (List.takeWhile_append_dropWhile isspace (rtrim s)).symm
  -- the ends of a non-empty result
  have hends : ∀ a rest, trim s = a :: rest →
      ∃ b, (trim s).getLast? = some b ∧ isspace a = false ∧ isspace b = false := by
    intro a rest ht
    have ha : isspace a = false := head_dropWhile_false isspace (rtrim s) a rest ht
    have hne : (rtrim s).dropWhile isspace ≠ [] := by
      intro h0
      have : trim s = [] := h0
      rw [ht] at this
      cases this
    have hlast : (trim s).getLast? = (rtrim s).getLast? := getLast?_dropWhile isspace _ hne
    cases hb : (trim s).getLast? with
    | none =>
      rw [ht] at hb
      simp at hb
    | some b =>
      refine ⟨b, rfl, ha, ?_⟩
      rw [hlast] at hb
      exact rtrim_last s b hb
  refine ⟨?_, ?_, ?_, ?_⟩
  · refine ⟨(rtrim s).takeWhile isspace, suf, ?_, ?_, hsufsp⟩
    · rw [← hpre]; exact hsuf
    · intro c hc
      exact List.mem_takeWhile_imp hc
  · cases ht : trim s with
    | nil => exact Or.inl rfl
    | cons a rest =>
      obtain ⟨b, hb, ha, hbs⟩ := hends a rest ht
      rw [ht] at hb
      exact Or.inr ⟨a, b, rfl, hb, ha, hbs⟩
  · constructor
    · intro ht
      have hall : ∀ c ∈ rtrim s, isspace c = true := List.dropWhile_eq_nil_iff.mp ht
      have hr : rtrim s = [] := by
        cases hl : (rtrim s).getLast? with
        | none => exact List.getLast?_eq_none_iff.mp hl
        | some b =>
          have h1 := rtrim_last s b hl
          have h2 := hall b (List.mem_of_getLast?_eq_some hl)
          rw [h1] at h2
          cases h2
      intro c hc
      rw [hsuf, hr] at hc
      exact hsufsp c (by simpa using hc)
    · intro hall
      have hrev : s.reverse.dropWhile isspace = [] :=
        List.dropWhile_eq_nil_iff.mpr (fun c hc => hall c (List.mem_reverse.mp hc))
      simp [trim, ltrim, rtrim, hrev]
  · cases ht : trim s with
    | nil => rfl
    | cons a rest =>
      obtain ⟨b, hb, ha, hbs⟩ := hends a rest ht
      rw [ht] at hb
      show ltrim (rtrim (a :: rest)) = a :: rest
      rw [rtrim_of_last_false (a :: rest) b hb hbs]
      exact dropWhile_of_head_false isspace a rest ha

end nonboost.algorithm

end urdf
